import Mathlib

/-!
Verification of the Scribbly robot kinematics module (kinematics.js).

The module is floating-point numeric code; it is embedded here over the real
numbers: every JS arithmetic expression is transliterated to the corresponding
exact real expression, `Math.atan2` becomes the complex argument, and the
mutation of `this.props` performed by the lazy `recalcProps` guard is made
explicit by threading a `State` value through `forward` and `inverse`.
-/

set_option maxHeartbeats 2000000

noncomputable section

namespace Kinematics

open Real

/-- Planar point in canvas coordinates (y grows downward), mirroring the JS
point objects with numeric fields `x` and `y`. -/
@[ext]
structure Point where
  x : ℝ
  y : ℝ

/-- Configuration fields that the kinematics module itself never reads; callers
of `setConfig` may merge them into the configuration object (the linear-mode
test harness passes `MODE`/`OriginL`/`OriginR`/`LinkLength`, the simulator
passes the `SAFE_*` fields). -/
structure ExtraConfig where
  MODE : ℕ
  OriginL : ℝ
  OriginR : ℝ
  LinkLength : ℝ
  SAFE_W : ℝ
  SAFE_H : ℝ
  SAFE_X : ℝ
  SAFE_Y : ℝ

/-- Robot configuration: the five geometric fields read by the solvers, plus
the extra fields a `setConfig` caller may have merged in. -/
structure Config where
  SHOULDER_SEP : ℝ
  L_BODY : ℝ
  L_BLUE : ℝ
  A_BEND : ℝ
  L_MAIN : ℝ
  extra : ExtraConfig

/-- Cached derived properties: effective crank length `L_EFF` and phase offset
`PHI`. -/
structure Props where
  L_EFF : ℝ
  PHI : ℝ

/-- Module state: current configuration and cached derived properties. -/
structure State where
  CONFIG : Config
  props : Props

/-- Transliteration of `recalcProps`: law-of-cosines effective crank length and
law-of-sines phase offset. -/
def recalcProps (c : Config) : Props :=
  let radBend := c.A_BEND * π / 180
  let leff :=
    Real.sqrt (c.L_BODY ^ 2 + c.L_BLUE ^ 2 - 2 * c.L_BODY * c.L_BLUE * Real.cos radBend)
  { L_EFF := leff
    PHI := Real.arcsin (c.L_BLUE * Real.sin radBend / leff) }

/-- State after `setConfig` installed configuration `c` (`setConfig` merges the
new fields into `CONFIG` and immediately calls `recalcProps`). -/
def setConfig (c : Config) : State :=
  { CONFIG := c, props := recalcProps c }

/-- Extra fields all zeroed, as in the shipped default configuration. -/
def defaultExtra : ExtraConfig := ⟨0, 0, 0, 0, 0, 0, 0, 0⟩

/-- The default `CONFIG` object of the module. -/
def defaultConfig : Config := ⟨140, 50, 80, 120, 180, defaultExtra⟩

/-- Initial module state: default `CONFIG` with `props = { L_EFF: 0, PHI: 0 }`,
so that the first solve triggers the lazy `recalcProps`. -/
def initialState : State := ⟨defaultConfig, ⟨0, 0⟩⟩

/-- Transliteration of `getCircleIntersections`. -/
def getCircleIntersections (x0 y0 r0 x1 y1 r1 : ℝ) : Option (Point × Point) :=
  let dx := x1 - x0
  let dy := y1 - y0
  let d := Real.sqrt (dx * dx + dy * dy)
  if d > r0 + r1 ∨ d < |r0 - r1| ∨ d = 0 then none
  else
    let a := (r0 * r0 - r1 * r1 + d * d) / (2 * d)
    let h := Real.sqrt (r0 * r0 - a * a)
    let x2 := x0 + a * (dx / d)
    let y2 := y0 + a * (dy / d)
    some (⟨x2 + h * (dy / d), y2 - h * (dx / d)⟩, ⟨x2 - h * (dy / d), y2 + h * (dx / d)⟩)

/-- JS `Math.atan2` over the reals, via the complex argument (range `(-π, π]`,
with `atan2 0 0 = 0`, matching JS). -/
def atan2 (y x : ℝ) : ℝ := Complex.arg ⟨x, y⟩

/-- Derived properties actually used by a solve: the lazy guard
`if (this.props.L_EFF === 0) this.recalcProps()` at the top of `forward` and
`inverse`. -/
def effProps (s : State) : Props :=
  if s.props.L_EFF = 0 then recalcProps s.CONFIG else s.props

/-- Left shoulder point `SL`. -/
def SLpt (c : Config) : Point := ⟨-c.SHOULDER_SEP / 2, 0⟩

/-- Right shoulder point `SR`. -/
def SRpt (c : Config) : Point := ⟨c.SHOULDER_SEP / 2, 0⟩

/-- Left virtual elbow computed by `forward` from the left servo angle. -/
def fwdElbowL (c : Config) (pr : Props) (dL : ℝ) : Point :=
  let radL := (180 - dL) * π / 180
  let thetaL_Eff := radL - pr.PHI
  ⟨(SLpt c).x + pr.L_EFF * Real.cos thetaL_Eff, (SLpt c).y + pr.L_EFF * Real.sin thetaL_Eff⟩

/-- Right virtual elbow computed by `forward` from the right servo angle. -/
def fwdElbowR (c : Config) (pr : Props) (dR : ℝ) : Point :=
  let radR := (0 + dR) * π / 180
  let thetaR_Eff := radR + pr.PHI
  ⟨(SRpt c).x + pr.L_EFF * Real.cos thetaR_Eff, (SRpt c).y + pr.L_EFF * Real.sin thetaR_Eff⟩

/-- Result object of `forward`. -/
structure ForwardResult where
  P : Point
  SL : Point
  SR : Point
  EL_Virtual : Point
  ER_Virtual : Point

/-- Pure computation of `forward` (given the configuration and the derived
properties in effect after the lazy guard). -/
def forwardCalc (c : Config) (pr : Props) (dL dR : ℝ) : Option ForwardResult :=
  let EL := fwdElbowL c pr dL
  let ER := fwdElbowR c pr dR
  match getCircleIntersections EL.x EL.y c.L_MAIN ER.x ER.y c.L_MAIN with
  | none => none
  | some (p₀, p₁) =>
      some { P := if p₀.y > p₁.y then p₀ else p₁
             SL := SLpt c
             SR := SRpt c
             EL_Virtual := EL
             ER_Virtual := ER }

/-- `forward`, with the JS mutation of `this.props` made explicit: the returned
state carries the (possibly recomputed) derived properties. -/
def forward (s : State) (dL dR : ℝ) : Option ForwardResult × State :=
  (forwardCalc s.CONFIG (effProps s) dL dR, ⟨s.CONFIG, effProps s⟩)

/-- Result object of `inverse`. -/
structure InverseResult where
  thetaL : ℝ
  thetaR : ℝ

/-- Elbow pair selected by `inverse` (per side, the intersection candidate with
the smaller y; on a tie the reduce picks the second element). -/
def inverseElbows (c : Config) (pr : Props) (x y : ℝ) : Option (Point × Point) :=
  match getCircleIntersections (SLpt c).x (SLpt c).y pr.L_EFF x y c.L_MAIN,
        getCircleIntersections (SRpt c).x (SRpt c).y pr.L_EFF x y c.L_MAIN with
  | some (a₀, a₁), some (b₀, b₁) =>
      some (if a₀.y < a₁.y then a₀ else a₁, if b₀.y < b₁.y then b₀ else b₁)
  | _, _ => none

/-- Servo angles computed by `inverse` before the range constraint check. -/
def inverseAngles (c : Config) (pr : Props) (x y : ℝ) : Option (ℝ × ℝ) :=
  (inverseElbows c pr x y).map fun e =>
    let angEffL := atan2 (e.1.y - (SLpt c).y) (e.1.x - (SLpt c).x)
    let angEffR := atan2 (e.2.y - (SRpt c).y) (e.2.x - (SRpt c).x)
    (180 - (angEffL + pr.PHI) * 180 / π, (angEffR - pr.PHI) * 180 / π)

/-- Pure computation of `inverse`, including the `[-30.1, 60.1]` constraint
check. -/
def inverseCalc (c : Config) (pr : Props) (x y : ℝ) : Option InverseResult :=
  match inverseAngles c pr x y with
  | none => none
  | some (dL, dR) =>
      if dL < -30.1 ∨ dL > 60.1 ∨ dR < -30.1 ∨ dR > 60.1 then none
      else some ⟨dL, dR⟩

/-- `inverse`, with the JS mutation of `this.props` made explicit. -/
def inverse (s : State) (x y : ℝ) : Option InverseResult × State :=
  (inverseCalc s.CONFIG (effProps s) x y, ⟨s.CONFIG, effProps s⟩)

/-- Reflection of `P` across the line through `A` and `B`; used to state which
of the two main-arm circle intersections a target point is. -/
def reflectAcross (A B P : Point) : Point :=
  let wx := B.x - A.x
  let wy := B.y - A.y
  let t := ((P.x - A.x) * wx + (P.y - A.y) * wy) / (wx * wx + wy * wy)
  ⟨2 * (A.x + t * wx) - P.x, 2 * (A.y + t * wy) - P.y⟩

/-- Center distance computed inside `getCircleIntersections`. -/
def cdist (x0 y0 x1 y1 : ℝ) : ℝ :=
  Real.sqrt ((x1 - x0) * (x1 - x0) + (y1 - y0) * (y1 - y0))

/-- Radical-line offset `a` computed inside `getCircleIntersections`. -/
def aOff (r0 r1 d : ℝ) : ℝ := (r0 * r0 - r1 * r1 + d * d) / (2 * d)

/-- Half-chord height `h` computed inside `getCircleIntersections`. -/
def hOff (r0 a : ℝ) : ℝ := Real.sqrt (r0 * r0 - a * a)

/-- Configuration exhibiting the failure of the unconditional round-trip
property: coincident shoulders. -/
def counterConfig : Config := ⟨0, 1, Real.sqrt 3, 90, 2, defaultExtra⟩

/-- Configuration on which `inverse` succeeds and round-trips exactly. -/
def niceConfig : Config := ⟨4, 1, Real.sqrt 3, 90, Real.sqrt 13, defaultExtra⟩

end Kinematics

namespace Kinematics

/-- C10: `forward` and `inverse` never modify `CONFIG`; when the cached
`L_EFF` is non-zero at entry the cached derived properties are left unchanged,
and when it is zero they are recomputed from the current configuration. -/
theorem forward_inverse_frame (s : State) (dL dR x y : ℝ) :
    (forward s dL dR).2.CONFIG = s.CONFIG ∧ (inverse s x y).2.CONFIG = s.CONFIG ∧
    (s.props.L_EFF ≠ 0 →
      (forward s dL dR).2.props = s.props ∧ (inverse s x y).2.props = s.props) ∧
    (s.props.L_EFF = 0 →
      (forward s dL dR).2.props = recalcProps s.CONFIG ∧
      (inverse s x y).2.props = recalcProps s.CONFIG) := by
  refine ⟨rfl, rfl, fun h => ?_, fun h => ?_⟩ <;>
    simp [forward, inverse, effProps, h]

/-- Witness for C10 at the initial state (whose cached `L_EFF` is `0`). -/
theorem forward_inverse_frame_witness :
    initialState.props.L_EFF = 0 ∧
    (forward initialState 1 2).2.CONFIG = initialState.CONFIG ∧
    (forward initialState 1 2).2.props = recalcProps initialState.CONFIG := by
  refine ⟨rfl, (forward_inverse_frame initialState 1 2 3 4).1, ?_⟩
  exact ((forward_inverse_frame initialState 1 2 3 4).2.2.2 rfl).1

/-- C9: the results of `forward` and `inverse` depend only on the five
geometric configuration fields; two configurations agreeing on those five
fields give identical results for every input, whatever the other merged
fields are. -/
theorem forward_inverse_ignore_extra (c₁ c₂ : Config)
    (h1 : c₁.SHOULDER_SEP = c₂.SHOULDER_SEP) (h2 : c₁.L_BODY = c₂.L_BODY)
    (h3 : c₁.L_BLUE = c₂.L_BLUE) (h4 : c₁.A_BEND = c₂.A_BEND)
    (h5 : c₁.L_MAIN = c₂.L_MAIN) (dL dR x y : ℝ) :
    (forward (setConfig c₁) dL dR).1 = (forward (setConfig c₂) dL dR).1 ∧
    (inverse (setConfig c₁) x y).1 = (inverse (setConfig c₂) x y).1 := by
  obtain ⟨S₁, B₁, U₁, A₁, M₁, e₁⟩ := c₁
  obtain ⟨S₂, B₂, U₂, A₂, M₂, e₂⟩ := c₂
  cases h1
  cases h2
  cases h3
  cases h4
  cases h5
  exact ⟨rfl, rfl⟩

/-- Witness for C9: the default configuration versus the same five geometric
fields with the linear-mode harness extras merged in. -/
theorem forward_inverse_ignore_extra_witness :
    (Config.SHOULDER_SEP ⟨140, 50, 80, 120, 180, ⟨1, -100, 100, 250, 0, 0, 0, 0⟩⟩ =
      defaultConfig.SHOULDER_SEP) ∧
    (forward (setConfig ⟨140, 50, 80, 120, 180, ⟨1, -100, 100, 250, 0, 0, 0, 0⟩⟩) 0 0).1 =
      (forward (setConfig defaultConfig) 0 0).1 ∧
    (inverse (setConfig ⟨140, 50, 80, 120, 180, ⟨1, -100, 100, 250, 0, 0, 0, 0⟩⟩) 0 250).1 =
      (inverse (setConfig defaultConfig) 0 250).1 := by
  refine ⟨rfl, ?_⟩
  exact forward_inverse_ignore_extra _ defaultConfig rfl rfl rfl rfl rfl 0 0 0 250

/-- C5: `forward` fails exactly when the circle intersection of the two
main-arm circles centered at the virtual elbows reports no intersection; the
input angles themselves are never range-checked. -/
theorem forward_none_iff_circles (s : State) (dL dR : ℝ) :
    (forward s dL dR).1 = none ↔
      getCircleIntersections (fwdElbowL s.CONFIG (effProps s) dL).x
        (fwdElbowL s.CONFIG (effProps s) dL).y s.CONFIG.L_MAIN
        (fwdElbowR s.CONFIG (effProps s) dR).x
        (fwdElbowR s.CONFIG (effProps s) dR).y s.CONFIG.L_MAIN = none := by
  cases h : getCircleIntersections (fwdElbowL s.CONFIG (effProps s) dL).x
      (fwdElbowL s.CONFIG (effProps s) dL).y s.CONFIG.L_MAIN
      (fwdElbowR s.CONFIG (effProps s) dR).x
      (fwdElbowR s.CONFIG (effProps s) dR).y s.CONFIG.L_MAIN with
  | none => simp [forward, forwardCalc, h]
  | some p =>
      obtain ⟨p₀, p₁⟩ := p
      simp [forward, forwardCalc, h]

/-- C6: the range guard of `inverse`: whenever the geometric solve produced
angles, an out-of-range angle forces a not-found result, and consequently any
successful result has both angles inside `[-30.1, 60.1]`. -/
theorem inverse_range_check (s : State) (x y : ℝ) :
    (∀ dL dR : ℝ, inverseAngles s.CONFIG (effProps s) x y = some (dL, dR) →
        (dL < -30.1 ∨ dL > 60.1 ∨ dR < -30.1 ∨ dR > 60.1) → (inverse s x y).1 = none) ∧
    ∀ r : InverseResult, (inverse s x y).1 = some r →
      -30.1 ≤ r.thetaL ∧ r.thetaL ≤ 60.1 ∧ -30.1 ≤ r.thetaR ∧ r.thetaR ≤ 60.1 := by
  constructor
  · intro dL dR hA hout
    simp [inverse, inverseCalc, hA, hout]
  · intro r hr
    simp only [inverse] at hr
    unfold inverseCalc at hr
    cases hA : inverseAngles s.CONFIG (effProps s) x y with
    | none => rw [hA] at hr; exact absurd hr (by simp)
    | some p =>
        obtain ⟨dL, dR⟩ := p
        rw [hA] at hr
        have hr' : (if dL < -30.1 ∨ dL > 60.1 ∨ dR < -30.1 ∨ dR > 60.1 then
            (none : Option InverseResult) else some ⟨dL, dR⟩) = some r := hr
        by_cases hc : dL < -30.1 ∨ dL > 60.1 ∨ dR < -30.1 ∨ dR > 60.1
        · rw [if_pos hc] at hr'
          exact absurd hr' (by simp)
        · rw [if_neg hc] at hr'
          push_neg at hc
          obtain ⟨hc1, hc2, hc3, hc4⟩ := hc
          cases hr'
          exact ⟨hc1, hc2, hc3, hc4⟩

end Kinematics

namespace Kinematics

open Real

/-- Unfolding of `getCircleIntersections` through the named helper values. -/
theorem gci_eq (x0 y0 r0 x1 y1 r1 : ℝ) :
    getCircleIntersections x0 y0 r0 x1 y1 r1 =
      if cdist x0 y0 x1 y1 > r0 + r1 ∨ cdist x0 y0 x1 y1 < |r0 - r1| ∨ cdist x0 y0 x1 y1 = 0
      then none
      else
        some (⟨x0 + aOff r0 r1 (cdist x0 y0 x1 y1) * ((x1 - x0) / cdist x0 y0 x1 y1) +
                 hOff r0 (aOff r0 r1 (cdist x0 y0 x1 y1)) * ((y1 - y0) / cdist x0 y0 x1 y1),
               y0 + aOff r0 r1 (cdist x0 y0 x1 y1) * ((y1 - y0) / cdist x0 y0 x1 y1) -
                 hOff r0 (aOff r0 r1 (cdist x0 y0 x1 y1)) * ((x1 - x0) / cdist x0 y0 x1 y1)⟩,
              ⟨x0 + aOff r0 r1 (cdist x0 y0 x1 y1) * ((x1 - x0) / cdist x0 y0 x1 y1) -
                 hOff r0 (aOff r0 r1 (cdist x0 y0 x1 y1)) * ((y1 - y0) / cdist x0 y0 x1 y1),
               y0 + aOff r0 r1 (cdist x0 y0 x1 y1) * ((y1 - y0) / cdist x0 y0 x1 y1) +
                 hOff r0 (aOff r0 r1 (cdist x0 y0 x1 y1)) * ((x1 - x0) / cdist x0 y0 x1 y1)⟩) :=
  rfl

/-- Facts available on the non-rejecting branch of `getCircleIntersections`:
the distance is positive, both radii are nonnegative, and the radical offset is
bounded by the first radius. -/
theorem gci_branch_facts {x0 y0 r0 x1 y1 r1 : ℝ}
    (h : ¬(cdist x0 y0 x1 y1 > r0 + r1 ∨ cdist x0 y0 x1 y1 < |r0 - r1| ∨
        cdist x0 y0 x1 y1 = 0)) :
    0 < cdist x0 y0 x1 y1 ∧ 0 ≤ r0 ∧ 0 ≤ r1 ∧
      aOff r0 r1 (cdist x0 y0 x1 y1) * aOff r0 r1 (cdist x0 y0 x1 y1) ≤ r0 * r0 := by
  push_neg at h
  obtain ⟨h1, h2, h3⟩ := h
  set d := cdist x0 y0 x1 y1 with hd
  have hd0 : 0 ≤ d := Real.sqrt_nonneg _
  have hdpos : 0 < d := lt_of_le_of_ne hd0 (Ne.symm h3)
  have habs := abs_le.mp h2
  have hr0 : 0 ≤ r0 := by linarith [habs.1, habs.2]
  have hr1 : 0 ≤ r1 := by linarith [habs.2]
  have f1 : 0 ≤ r1 - r0 + d := by linarith [habs.2]
  have f2 : 0 ≤ r0 + r1 - d := by linarith
  have f3 : 0 ≤ r0 + d - r1 := by linarith [habs.1]
  have f4 : 0 ≤ r0 + d + r1 := by linarith
  have prod : (r1 - r0 + d) * ((r0 + r1 - d) * ((r0 + d - r1) * (r0 + d + r1))) =
      (2 * d * r0) ^ 2 - (r0 * r0 - r1 * r1 + d * d) ^ 2 := by ring
  have key : (r0 * r0 - r1 * r1 + d * d) ^ 2 ≤ (2 * d * r0) ^ 2 := by
    nlinarith [mul_nonneg f1 (mul_nonneg f2 (mul_nonneg f3 f4))]
  refine ⟨hdpos, hr0, hr1, ?_⟩
  have ha2 : aOff r0 r1 d * aOff r0 r1 d =
      (r0 * r0 - r1 * r1 + d * d) ^ 2 / (2 * d) ^ 2 := by
    rw [aOff]; ring
  rw [ha2, div_le_iff (by positivity)]
  nlinarith [key]

/-- C8: on the non-rejected branch (radii positive, `|r0-r1| ≤ d ≤ r0+r1`,
`d ≠ 0`) the square-root argument `r0² - a²` is nonnegative, and the function
returns two well-defined points rather than a partial result. -/
theorem circle_sqrt_arg_nonneg (x0 y0 r0 x1 y1 r1 : ℝ) (hr0 : 0 < r0) (hr1 : 0 < r1)
    (h : ¬(cdist x0 y0 x1 y1 > r0 + r1 ∨ cdist x0 y0 x1 y1 < |r0 - r1| ∨
        cdist x0 y0 x1 y1 = 0)) :
    0 ≤ r0 * r0 - aOff r0 r1 (cdist x0 y0 x1 y1) * aOff r0 r1 (cdist x0 y0 x1 y1) ∧
    ∃ p q : Point, getCircleIntersections x0 y0 r0 x1 y1 r1 = some (p, q) := by
  have hb := gci_branch_facts h
  refine ⟨by linarith [hb.2.2.2], ?_⟩
  rw [gci_eq, if_neg h]
  exact ⟨_, _, rfl⟩

/-- Witness for C8 at the unit circles centered at the origin and at `(1,0)`. -/
theorem circle_sqrt_arg_nonneg_witness :
    (0 : ℝ) < 1 ∧
    (0 ≤ (1 : ℝ) * 1 - aOff 1 1 (cdist 0 0 1 0) * aOff 1 1 (cdist 0 0 1 0) ∧
      ∃ p q : Point, getCircleIntersections 0 0 1 1 0 1 = some (p, q)) := by
  have hd : cdist 0 0 1 0 = 1 := by
    rw [cdist]; norm_num
  refine ⟨one_pos, circle_sqrt_arg_nonneg 0 0 1 1 0 1 one_pos one_pos ?_⟩
  rw [hd]
  norm_num

/-- Algebraic core: the formula point lies on both circles. -/
theorem onCircles_of (A H d dx dy r0 r1 : ℝ) (dne : d ≠ 0)
    (hd2 : d * d = dx * dx + dy * dy) (hH2 : H * H = r0 * r0 - A * A)
    (h2Ad : A * (2 * d) = r0 * r0 - r1 * r1 + d * d) :
    (A * (dx / d) + H * (dy / d)) ^ 2 + (A * (dy / d) - H * (dx / d)) ^ 2 = r0 ^ 2 ∧
    (A * (dx / d) + H * (dy / d) - dx) ^ 2 + (A * (dy / d) - H * (dx / d) - dy) ^ 2 = r1 ^ 2 := by
  constructor
  · have e1 : (A * (dx / d) + H * (dy / d)) ^ 2 + (A * (dy / d) - H * (dx / d)) ^ 2
        = ((A * A + H * H) * (dx * dx + dy * dy)) / (d * d) := by
      field_simp
      ring
    rw [e1, hH2, ← hd2]
    have e3 : A * A + (r0 * r0 - A * A) = r0 * r0 := by ring
    rw [e3]
    field_simp
    ring
  · have e2 : (A * (dx / d) + H * (dy / d) - dx) ^ 2 + (A * (dy / d) - H * (dx / d) - dy) ^ 2
        = (((A - d) * (A - d) + H * H) * (dx * dx + dy * dy)) / (d * d) := by
      field_simp
      ring
    rw [e2, hH2, ← hd2]
    have e4 : (A - d) * (A - d) + (r0 * r0 - A * A) = r1 * r1 := by linear_combination -h2Ad
    rw [e4]
    field_simp
    ring

/-- Each point returned by `getCircleIntersections` lies exactly on both input
circles, and the branch conditions force both radii nonnegative. -/
theorem gci_mem {x0 y0 r0 x1 y1 r1 : ℝ} {p q : Point}
    (hs : getCircleIntersections x0 y0 r0 x1 y1 r1 = some (p, q)) :
    (p.x - x0) ^ 2 + (p.y - y0) ^ 2 = r0 ^ 2 ∧ (p.x - x1) ^ 2 + (p.y - y1) ^ 2 = r1 ^ 2 ∧
    (q.x - x0) ^ 2 + (q.y - y0) ^ 2 = r0 ^ 2 ∧ (q.x - x1) ^ 2 + (q.y - y1) ^ 2 = r1 ^ 2 ∧
    0 ≤ r0 ∧ 0 ≤ r1 := by
  rw [gci_eq] at hs
  by_cases h : cdist x0 y0 x1 y1 > r0 + r1 ∨ cdist x0 y0 x1 y1 < |r0 - r1| ∨
      cdist x0 y0 x1 y1 = 0
  · rw [if_pos h] at hs
    exact absurd hs (by simp)
  · rw [if_neg h] at hs
    obtain ⟨hdpos, hr0, hr1, haa⟩ := gci_branch_facts h
    set d := cdist x0 y0 x1 y1 with hd
    set A := aOff r0 r1 d with hA
    have dne : d ≠ 0 := ne_of_gt hdpos
    have hd2 : d * d = (x1 - x0) * (x1 - x0) + (y1 - y0) * (y1 - y0) :=
      Real.mul_self_sqrt (add_nonneg (mul_self_nonneg _) (mul_self_nonneg _))
    have hH2 : hOff r0 A * hOff r0 A = r0 * r0 - A * A :=
      Real.mul_self_sqrt (by linarith)
    have hH2n : -hOff r0 A * -hOff r0 A = r0 * r0 - A * A := by
      rw [neg_mul_neg]
      exact hH2
    have h2Ad : A * (2 * d) = r0 * r0 - r1 * r1 + d * d := by
      rw [hA, aOff]
      field_simp
    have hpq := Option.some.inj hs
    have hp : p = ⟨x0 + A * ((x1 - x0) / d) + hOff r0 A * ((y1 - y0) / d),
        y0 + A * ((y1 - y0) / d) - hOff r0 A * ((x1 - x0) / d)⟩ := (congrArg Prod.fst hpq).symm
    have hq : q = ⟨x0 + A * ((x1 - x0) / d) - hOff r0 A * ((y1 - y0) / d),
        y0 + A * ((y1 - y0) / d) + hOff r0 A * ((x1 - x0) / d)⟩ := (congrArg Prod.snd hpq).symm
    have hcp := onCircles_of A (hOff r0 A) d (x1 - x0) (y1 - y0) r0 r1 dne hd2 hH2 h2Ad
    have hcq := onCircles_of A (-hOff r0 A) d (x1 - x0) (y1 - y0) r0 r1 dne hd2 hH2n h2Ad
    subst hp
    subst hq
    dsimp only
    refine ⟨?_, ?_, ?_, ?_, hr0, hr1⟩
    · linear_combination hcp.1
    · linear_combination hcp.2
    · linear_combination hcq.1
    · linear_combination hcq.2

/-- Completeness: any point lying on both circles is one of the two points
returned by `getCircleIntersections`. -/
theorem gci_complete {x0 y0 r0 x1 y1 r1 : ℝ} {p q : Point}
    (hs : getCircleIntersections x0 y0 r0 x1 y1 r1 = some (p, q)) (z : Point)
    (hz0 : (z.x - x0) ^ 2 + (z.y - y0) ^ 2 = r0 ^ 2)
    (hz1 : (z.x - x1) ^ 2 + (z.y - y1) ^ 2 = r1 ^ 2) :
    z = p ∨ z = q := by
  rw [gci_eq] at hs
  by_cases h : cdist x0 y0 x1 y1 > r0 + r1 ∨ cdist x0 y0 x1 y1 < |r0 - r1| ∨
      cdist x0 y0 x1 y1 = 0
  · rw [if_pos h] at hs
    exact absurd hs (by simp)
  · rw [if_neg h] at hs
    obtain ⟨hdpos, hr0, hr1, haa⟩ := gci_branch_facts h
    set d := cdist x0 y0 x1 y1 with hd
    set A := aOff r0 r1 d with hA
    have dne : d ≠ 0 := ne_of_gt hdpos
    have hd2 : d * d = (x1 - x0) * (x1 - x0) + (y1 - y0) * (y1 - y0) :=
      Real.mul_self_sqrt (add_nonneg (mul_self_nonneg _) (mul_self_nonneg _))
    have h2Ad : A * (2 * d) = r0 * r0 - r1 * r1 + d * d := by
      rw [hA, aOff]
      field_simp
    have hdot : (z.x - x0) * (x1 - x0) + (z.y - y0) * (y1 - y0) = A * d := by
      linear_combination (1 / 2) * hz0 - (1 / 2) * hz1 - (1 / 2) * hd2 - (1 / 2) * h2Ad
    set B := ((z.x - x0) * (y1 - y0) - (z.y - y0) * (x1 - x0)) / d with hB
    have hBd : B * d = (z.x - x0) * (y1 - y0) - (z.y - y0) * (x1 - x0) := by
      rw [hB]
      field_simp
    have h1 : (B * d) * (B * d) = (r0 * r0 - A * A) * (d * d) := by
      rw [hBd]
      linear_combination ((x1 - x0) * (x1 - x0) + (y1 - y0) * (y1 - y0)) * hz0 -
        (r0 * r0) * hd2 -
        ((z.x - x0) * (x1 - x0) + (z.y - y0) * (y1 - y0) + A * d) * hdot
    have hBsq : B * B = r0 * r0 - A * A := by
      have h1' : B * B * (d * d) = (r0 * r0 - A * A) * (d * d) := by linear_combination h1
      exact mul_right_cancel₀ (mul_ne_zero dne dne) h1'
    have hHabs : hOff r0 A = |B| := by
      rw [hOff, show r0 * r0 - A * A = B ^ 2 by rw [← hBsq]; ring, Real.sqrt_sq_eq_abs]
    have hx' : (z.x - x0) * (d * d) = (A * d) * (x1 - x0) + (B * d) * (y1 - y0) := by
      rw [hBd, ← hdot]
      linear_combination (z.x - x0) * hd2
    have hy' : (z.y - y0) * (d * d) = (A * d) * (y1 - y0) - (B * d) * (x1 - x0) := by
      rw [hBd, ← hdot]
      linear_combination (z.y - y0) * hd2
    have hzx : z.x - x0 = A * ((x1 - x0) / d) + B * ((y1 - y0) / d) := by
      have expand : A * ((x1 - x0) / d) + B * ((y1 - y0) / d) =
          ((A * d) * (x1 - x0) + (B * d) * (y1 - y0)) / (d * d) := by
        field_simp
        ring
      rw [expand, ← hx', mul_div_cancel_right₀ _ (mul_ne_zero dne dne)]
    have hzy : z.y - y0 = A * ((y1 - y0) / d) - B * ((x1 - x0) / d) := by
      have expand : A * ((y1 - y0) / d) - B * ((x1 - x0) / d) =
          ((A * d) * (y1 - y0) - (B * d) * (x1 - x0)) / (d * d) := by
        field_simp
        ring
      rw [expand, ← hy', mul_div_cancel_right₀ _ (mul_ne_zero dne dne)]
    have hpq := Option.some.inj hs
    have hp : p = ⟨x0 + A * ((x1 - x0) / d) + hOff r0 A * ((y1 - y0) / d),
        y0 + A * ((y1 - y0) / d) - hOff r0 A * ((x1 - x0) / d)⟩ := (congrArg Prod.fst hpq).symm
    have hq : q = ⟨x0 + A * ((x1 - x0) / d) - hOff r0 A * ((y1 - y0) / d),
        y0 + A * ((y1 - y0) / d) + hOff r0 A * ((x1 - x0) / d)⟩ := (congrArg Prod.snd hpq).symm
    rcases le_or_lt 0 B with hBp | hBn
    · left
      rw [hp]
      have habs : |B| = B := abs_of_nonneg hBp
      ext
      · show z.x = x0 + A * ((x1 - x0) / d) + hOff r0 A * ((y1 - y0) / d)
        rw [hHabs, habs]
        linarith [hzx]
      · show z.y = y0 + A * ((y1 - y0) / d) - hOff r0 A * ((x1 - x0) / d)
        rw [hHabs, habs]
        linarith [hzy]
    · right
      rw [hq]
      have habs : |B| = -B := abs_of_neg hBn
      ext
      · show z.x = x0 + A * ((x1 - x0) / d) - hOff r0 A * ((y1 - y0) / d)
        rw [hHabs, habs]
        linarith [hzx]
      · show z.y = y0 + A * ((y1 - y0) / d) + hOff r0 A * ((x1 - x0) / d)
        rw [hHabs, habs]
        linarith [hzy]

/-- C4: `getCircleIntersections` reports no intersection exactly when
`d > r0+r1`, `d < |r0-r1|` or `d = 0`; otherwise it returns exactly two points,
each lying on both circles, and the two points coincide when the circles are
tangent. -/
theorem getCircleIntersections_spec (x0 y0 r0 x1 y1 r1 : ℝ) (hr0 : 0 < r0) (hr1 : 0 < r1) :
    (getCircleIntersections x0 y0 r0 x1 y1 r1 = none ↔
      cdist x0 y0 x1 y1 > r0 + r1 ∨ cdist x0 y0 x1 y1 < |r0 - r1| ∨
        cdist x0 y0 x1 y1 = 0) ∧
    ∀ p q : Point, getCircleIntersections x0 y0 r0 x1 y1 r1 = some (p, q) →
      ((p.x - x0) ^ 2 + (p.y - y0) ^ 2 = r0 ^ 2 ∧ (p.x - x1) ^ 2 + (p.y - y1) ^ 2 = r1 ^ 2 ∧
       (q.x - x0) ^ 2 + (q.y - y0) ^ 2 = r0 ^ 2 ∧ (q.x - x1) ^ 2 + (q.y - y1) ^ 2 = r1 ^ 2) ∧
      ((cdist x0 y0 x1 y1 = r0 + r1 ∨ cdist x0 y0 x1 y1 = |r0 - r1|) → p = q) := by
  constructor
  · rw [gci_eq]
    by_cases h : cdist x0 y0 x1 y1 > r0 + r1 ∨ cdist x0 y0 x1 y1 < |r0 - r1| ∨
        cdist x0 y0 x1 y1 = 0
    · rw [if_pos h]
      simpa using h
    · rw [if_neg h]
      simpa using h
  · intro p q hs
    have hm := gci_mem hs
    refine ⟨⟨hm.1, hm.2.1, hm.2.2.1, hm.2.2.2.1⟩, ?_⟩
    intro ht
    rw [gci_eq] at hs
    by_cases h : cdist x0 y0 x1 y1 > r0 + r1 ∨ cdist x0 y0 x1 y1 < |r0 - r1| ∨
        cdist x0 y0 x1 y1 = 0
    · rw [if_pos h] at hs
      exact absurd hs (by simp)
    · rw [if_neg h] at hs
      obtain ⟨hdpos, hr0n, hr1n, haa⟩ := gci_branch_facts h
      set d := cdist x0 y0 x1 y1 with hd
      set A := aOff r0 r1 d with hA
      have dne : d ≠ 0 := ne_of_gt hdpos
      have h2Ad : A * (2 * d) = r0 * r0 - r1 * r1 + d * d := by
        rw [hA, aOff]
        field_simp
      have hAA : r0 * r0 - A * A = 0 := by
        rcases ht with h1 | h2
        · have hAr0 : A * (2 * d) = r0 * (2 * d) := by
            rw [h2Ad, h1]
            ring
          have hAeq : A = r0 := mul_right_cancel₀ (mul_ne_zero two_ne_zero dne) hAr0
          rw [hAeq]
          ring
        · have hdsq : d * d = (r0 - r1) * (r0 - r1) := by
            rw [h2, abs_mul_abs_self]
          have h3 : A * (2 * d) = 2 * r0 * (r0 - r1) := by
            rw [h2Ad, hdsq]
            ring
          have h3sq : (A * (2 * d)) * (A * (2 * d)) =
              (2 * r0 * (r0 - r1)) * (2 * r0 * (r0 - r1)) := by rw [h3]
          have h4 : (A * A) * (d * d) = (r0 * r0) * (d * d) := by
            linear_combination (1 / 4) * h3sq - (r0 * r0) * hdsq
          have h5 : A * A = r0 * r0 := mul_right_cancel₀ (mul_ne_zero dne dne) h4
          rw [h5]
          ring
      have hH0 : hOff r0 A = 0 := by
        rw [hOff, hAA, Real.sqrt_zero]
      have hpq := Option.some.inj hs
      have hp : p = ⟨x0 + A * ((x1 - x0) / d) + hOff r0 A * ((y1 - y0) / d),
          y0 + A * ((y1 - y0) / d) - hOff r0 A * ((x1 - x0) / d)⟩ :=
        (congrArg Prod.fst hpq).symm
      have hq : q = ⟨x0 + A * ((x1 - x0) / d) - hOff r0 A * ((y1 - y0) / d),
          y0 + A * ((y1 - y0) / d) + hOff r0 A * ((x1 - x0) / d)⟩ :=
        (congrArg Prod.snd hpq).symm
      rw [hp, hq, hH0]
      ext
      · show x0 + A * ((x1 - x0) / d) + 0 * ((y1 - y0) / d) =
          x0 + A * ((x1 - x0) / d) - 0 * ((y1 - y0) / d)
        ring
      · show y0 + A * ((y1 - y0) / d) - 0 * ((x1 - x0) / d) =
          y0 + A * ((y1 - y0) / d) + 0 * ((x1 - x0) / d)
        ring

/-- Witness for C4 at the unit circles centered at the origin and at `(1,0)`. -/
theorem getCircleIntersections_spec_witness :
    (0 : ℝ) < 1 ∧
    ((getCircleIntersections 0 0 1 1 0 1 = none ↔
        cdist 0 0 1 0 > 1 + 1 ∨ cdist 0 0 1 0 < |1 - 1| ∨ cdist 0 0 1 0 = 0) ∧
      ∀ p q : Point, getCircleIntersections 0 0 1 1 0 1 = some (p, q) →
        ((p.x - 0) ^ 2 + (p.y - 0) ^ 2 = 1 ^ 2 ∧ (p.x - 1) ^ 2 + (p.y - 0) ^ 2 = 1 ^ 2 ∧
         (q.x - 0) ^ 2 + (q.y - 0) ^ 2 = 1 ^ 2 ∧ (q.x - 1) ^ 2 + (q.y - 0) ^ 2 = 1 ^ 2) ∧
        ((cdist 0 0 1 0 = 1 + 1 ∨ cdist 0 0 1 0 = |1 - 1|) → p = q)) :=
  ⟨one_pos, getCircleIntersections_spec 0 0 1 1 0 1 one_pos one_pos⟩

end Kinematics

namespace Kinematics

open Real

/-- Lower bound for a square root from a squared rational bound. -/
theorem sqrt_lb {m lo : ℝ} (hlo : 0 ≤ lo) (h : lo ^ 2 ≤ m) : lo ≤ Real.sqrt m := by
  calc lo = Real.sqrt (lo ^ 2) := (Real.sqrt_sq hlo).symm
  _ ≤ Real.sqrt m := Real.sqrt_le_sqrt h

/-- Upper bound for a square root from a squared rational bound. -/
theorem sqrt_ub {m hi : ℝ} (hhi : 0 ≤ hi) (h : m ≤ hi ^ 2) : Real.sqrt m ≤ hi := by
  calc Real.sqrt m ≤ Real.sqrt (hi ^ 2) := Real.sqrt_le_sqrt h
  _ = hi := Real.sqrt_sq hhi

/-- An effective left angle below `π/2` makes the computed left servo degree
exceed the `60.1` bound. -/
theorem dL_gt_of_lt_half_pi {t : ℝ} (h : t < π / 2) : 180 - t * 180 / π > 60.1 := by
  have hpi : 0 < π := pi_pos
  have h2 : t * 180 / π < 90 := by
    rw [div_lt_iff hpi]
    nlinarith
  linarith

/-- A vector in the open first octant has argument below `π/4`. -/
theorem atan2_lt_pi_div_four {vx vy : ℝ} (hvx : 0 < vx) (hvy : 0 < vy) (hvyx : vy < vx) :
    atan2 vy vx < π / 4 := by
  have habs : Complex.abs ⟨vx, vy⟩ = Real.sqrt (vx * vx + vy * vy) := by
    rw [Complex.abs_apply, Complex.normSq_mk]
  have hsum_pos : (0 : ℝ) < vx * vx + vy * vy := by
    nlinarith
  have habs_pos : 0 < Real.sqrt (vx * vx + vy * vy) := Real.sqrt_pos.mpr hsum_pos
  have hmem : π / 4 ∈ Set.Ioc (-(π / 2)) (π / 2) := by
    constructor
    · nlinarith [pi_pos]
    · nlinarith [pi_pos]
  rw [atan2, Complex.arg_of_re_nonneg (le_of_lt hvx)]
  show Real.arcsin (vy / Complex.abs ⟨vx, vy⟩) < π / 4
  rw [habs, Real.arcsin_lt_iff_lt_sin' hmem, Real.sin_pi_div_four, div_lt_iff habs_pos]
  apply lt_of_pow_lt_pow_left 2 (by positivity)
  have e : (Real.sqrt 2 / 2 * Real.sqrt (vx * vx + vy * vy)) ^ 2 =
      (1 / 2) * (vx * vx + vy * vy) := by
    rw [mul_pow, div_pow, Real.sq_sqrt (by norm_num : (0 : ℝ) ≤ 2),
      Real.sq_sqrt (le_of_lt hsum_pos)]
    ring
  rw [e]
  nlinarith [mul_lt_mul_of_pos_left hvyx hvy, mul_lt_mul_of_pos_right hvyx (lt_trans hvy hvyx)]

/-- The default phase offset is below `π/4`. -/
theorem default_PHI_lt_pi_div_four :
    Real.arcsin (40 * Real.sqrt 3 / Real.sqrt 12900) < π / 4 := by
  have hmem : π / 4 ∈ Set.Ioc (-(π / 2)) (π / 2) := by
    constructor
    · nlinarith [pi_pos]
    · nlinarith [pi_pos]
  rw [Real.arcsin_lt_iff_lt_sin' hmem, Real.sin_pi_div_four,
    div_lt_div_iff (Real.sqrt_pos.mpr (by norm_num)) two_pos]
  apply lt_of_pow_lt_pow_left 2 (by positivity)
  have e1 : (40 * Real.sqrt 3 * 2) ^ 2 = 19200 := by
    rw [mul_pow, mul_pow, Real.sq_sqrt (by norm_num : (0 : ℝ) ≤ 3)]
    norm_num
  have e2 : (Real.sqrt 2 * Real.sqrt 12900) ^ 2 = 25800 := by
    rw [mul_pow, Real.sq_sqrt (by norm_num : (0 : ℝ) ≤ 2),
      Real.sq_sqrt (by norm_num : (0 : ℝ) ≤ 12900)]
    norm_num
  rw [e1, e2]
  norm_num

/-- If both circle intersections of `inverse` succeed, the left selection takes
the first candidate, and that candidate's left servo angle exceeds `60.1`, then
`inverse` rejects. -/
theorem inverseCalc_none_of_guardL {c : Config} {pr : Props} {x y : ℝ} {a₀ a₁ b₀ b₁ : Point}
    (hL : getCircleIntersections (SLpt c).x (SLpt c).y pr.L_EFF x y c.L_MAIN = some (a₀, a₁))
    (hR : getCircleIntersections (SRpt c).x (SRpt c).y pr.L_EFF x y c.L_MAIN = some (b₀, b₁))
    (hsel : a₀.y < a₁.y)
    (hbad : 180 - (atan2 (a₀.y - (SLpt c).y) (a₀.x - (SLpt c).x) + pr.PHI) * 180 / π > 60.1) :
    inverseCalc c pr x y = none := by
  have hE : inverseElbows c pr x y = some (a₀, if b₀.y < b₁.y then b₀ else b₁) := by
    unfold inverseElbows
    rw [hL, hR]
    dsimp only
    rw [if_pos hsel]
  have hAng : inverseAngles c pr x y =
      some (180 - (atan2 (a₀.y - (SLpt c).y) (a₀.x - (SLpt c).x) + pr.PHI) * 180 / π,
        (atan2 ((if b₀.y < b₁.y then b₀ else b₁).y - (SRpt c).y)
            ((if b₀.y < b₁.y then b₀ else b₁).x - (SRpt c).x) - pr.PHI) * 180 / π) := by
    rw [inverseAngles, hE, Option.map_some']
  unfold inverseCalc
  rw [hAng]
  dsimp only
  rw [if_pos (Or.inr (Or.inl hbad))]

/-- Variant of the rejection lemma taking the numeric values of the shoulder
coordinates and configuration fields through explicit equations. -/
theorem inverseCalc_none_of_guardL_nums {c : Config} {pr : Props} {x y : ℝ}
    {sx sy rx ry le lm phi : ℝ} {a₀ a₁ b₀ b₁ : Point}
    (hsx : (SLpt c).x = sx) (hsy : (SLpt c).y = sy)
    (hrx : (SRpt c).x = rx) (hry : (SRpt c).y = ry)
    (hle : pr.L_EFF = le) (hlm : c.L_MAIN = lm) (hphi : pr.PHI = phi)
    (hL : getCircleIntersections sx sy le x y lm = some (a₀, a₁))
    (hR : getCircleIntersections rx ry le x y lm = some (b₀, b₁))
    (hsel : a₀.y < a₁.y)
    (hbad : 180 - (atan2 (a₀.y - sy) (a₀.x - sx) + phi) * 180 / π > 60.1) :
    inverseCalc c pr x y = none := by
  subst hsx
  subst hsy
  subst hrx
  subst hry
  subst hle
  subst hlm
  subst hphi
  exact inverseCalc_none_of_guardL hL hR hsel hbad

end Kinematics

namespace Kinematics

open Real

/-- The lazy guard fires in the initial state. -/
theorem effProps_initialState : effProps initialState = recalcProps defaultConfig :=
  if_pos rfl

/-- Effective crank length of the default configuration. -/
theorem default_L_EFF : (effProps initialState).L_EFF = Real.sqrt 12900 := by
  rw [effProps_initialState]
  show Real.sqrt ((50 : ℝ) ^ 2 + 80 ^ 2 - 2 * 50 * 80 * Real.cos (120 * π / 180)) =
    Real.sqrt 12900
  rw [show (120 : ℝ) * π / 180 = π - π / 3 by ring, Real.cos_pi_sub, Real.cos_pi_div_three]
  norm_num

/-- Phase offset of the default configuration. -/
theorem default_PHI : (effProps initialState).PHI =
    Real.arcsin (40 * Real.sqrt 3 / Real.sqrt 12900) := by
  rw [effProps_initialState]
  show Real.arcsin ((80 : ℝ) * Real.sin (120 * π / 180) /
      Real.sqrt ((50 : ℝ) ^ 2 + 80 ^ 2 - 2 * 50 * 80 * Real.cos (120 * π / 180))) = _
  rw [show (120 : ℝ) * π / 180 = π - π / 3 by ring, Real.sin_pi_sub, Real.sin_pi_div_three,
    Real.cos_pi_sub, Real.cos_pi_div_three]
  norm_num
  rw [show (80 : ℝ) * (Real.sqrt 3 / 2) = 40 * Real.sqrt 3 by ring]

/-- Left shoulder x under the default configuration. -/
theorem default_SLx : (SLpt defaultConfig).x = -70 := by
  show -(140 : ℝ) / 2 = -70
  norm_num

/-- Right shoulder x under the default configuration. -/
theorem default_SRx : (SRpt defaultConfig).x = 70 := by
  show (140 : ℝ) / 2 = 70
  norm_num

/-- Rejection of the target `(0, -200)` by `inverse` in the default
configuration: the computation runs to the constraint check and the left servo
angle is far beyond `60.1` degrees. -/
theorem inverseCalc_default_neg200 :
    inverseCalc defaultConfig (effProps initialState) 0 (-200) = none := by
  have s129l : (113 : ℝ) ≤ Real.sqrt 12900 := sqrt_lb (by norm_num) (by norm_num)
  have s129u : Real.sqrt 12900 ≤ 114 := sqrt_ub (by norm_num) (by norm_num)
  have s449l : (211 : ℝ) ≤ Real.sqrt 44900 := sqrt_lb (by norm_num) (by norm_num)
  have s449u : Real.sqrt 44900 ≤ 212 := sqrt_ub (by norm_num) (by norm_num)
  have hd449pos : (0 : ℝ) < Real.sqrt 44900 := by positivity
  have hdL : cdist (-70) 0 0 (-200) = Real.sqrt 44900 := by
    rw [cdist]
    norm_num
  have hdR : cdist 70 0 0 (-200) = Real.sqrt 44900 := by
    rw [cdist]
    norm_num
  have hcond : ¬(Real.sqrt 44900 > Real.sqrt 12900 + 180 ∨
      Real.sqrt 44900 < |Real.sqrt 12900 - 180| ∨ Real.sqrt 44900 = 0) := by
    push_neg
    refine ⟨by linarith, ?_, by linarith⟩
    rw [abs_of_nonpos (by linarith)]
    linarith
  have hLfull := gci_eq (-70) 0 (Real.sqrt 12900) 0 (-200) 180
  rw [hdL, if_neg hcond] at hLfull
  have hRfull := gci_eq 70 0 (Real.sqrt 12900) 0 (-200) 180
  rw [hdR, if_neg hcond] at hRfull
  set A2 := aOff (Real.sqrt 12900) 180 (Real.sqrt 44900) with hA2def
  set H2 := hOff (Real.sqrt 12900) A2 with hH2def
  have hA2pos : 0 < A2 := by
    rw [hA2def, aOff, Real.mul_self_sqrt (by norm_num : (0 : ℝ) ≤ 12900),
      Real.mul_self_sqrt (by norm_num : (0 : ℝ) ≤ 44900)]
    apply div_pos (by norm_num) (by positivity)
  have hA2sq : A2 * A2 = 1612900 / 449 := by
    rw [hA2def, aOff, Real.mul_self_sqrt (by norm_num : (0 : ℝ) ≤ 12900),
      Real.mul_self_sqrt (by norm_num : (0 : ℝ) ≤ 44900), div_mul_div_comm,
      show (2 * Real.sqrt 44900) * (2 * Real.sqrt 44900) =
        4 * (Real.sqrt 44900 * Real.sqrt 44900) by ring,
      Real.mul_self_sqrt (by norm_num : (0 : ℝ) ≤ 44900)]
    norm_num
  have harg : Real.sqrt 12900 * Real.sqrt 12900 - A2 * A2 = 4179200 / 449 := by
    rw [Real.mul_self_sqrt (by norm_num : (0 : ℝ) ≤ 12900), hA2sq]
    norm_num
  have hH2sq : H2 * H2 = 4179200 / 449 := by
    rw [hH2def, hOff, harg, Real.mul_self_sqrt (by norm_num : (0 : ℝ) ≤ 4179200 / 449)]
  have hH2pos : 0 < H2 := by
    rw [hH2def, hOff]
    apply Real.sqrt_pos.mpr
    rw [harg]
    norm_num
  refine inverseCalc_none_of_guardL_nums default_SLx
    (show (SLpt defaultConfig).y = 0 from rfl) default_SRx
    (show (SRpt defaultConfig).y = 0 from rfl) default_L_EFF
    (show defaultConfig.L_MAIN = 180 from rfl) default_PHI hLfull hRfull ?_ ?_
  · dsimp only
    have hq : 0 < H2 * ((0 - -70) / Real.sqrt 44900) :=
      mul_pos hH2pos (div_pos (by norm_num) hd449pos)
    linarith [hq]
  · dsimp only
    apply dL_gt_of_lt_half_pi
    have hvy : 0 + A2 * ((-200 - 0) / Real.sqrt 44900) - H2 * ((0 - -70) / Real.sqrt 44900)
        - 0 < 0 := by
      have t1 : A2 * ((-200 - (0 : ℝ)) / Real.sqrt 44900) < 0 :=
        mul_neg_of_pos_of_neg hA2pos (div_neg_of_neg_of_pos (by norm_num) hd449pos)
      have t2 : 0 < H2 * ((0 - -(70 : ℝ)) / Real.sqrt 44900) :=
        mul_pos hH2pos (div_pos (by norm_num) hd449pos)
      linarith
    have hneg : atan2
        (0 + A2 * ((-200 - 0) / Real.sqrt 44900) - H2 * ((0 - -70) / Real.sqrt 44900) - 0)
        (-70 + A2 * ((0 - -70) / Real.sqrt 44900) + H2 * ((-200 - 0) / Real.sqrt 44900)
          - -70) < 0 := by
      rw [atan2]
      exact Complex.arg_neg_iff.mpr hvy
    have hphi2 : Real.arcsin (40 * Real.sqrt 3 / Real.sqrt 12900) ≤ π / 2 :=
      Real.arcsin_le_pi_div_two _
    linarith

/-- C2 (amended): under the default configuration, `inverse(0, -200)` returns
not-found. -/
theorem inverse_default_neg200_not_found : (inverse initialState 0 (-200)).1 = none :=
  inverseCalc_default_neg200

/-- C2 counterexample: contrary to the claim, `inverse(0, -200)` does not
succeed under the default configuration, so no round trip exists there. -/
theorem inverse_default_neg200_no_success :
    ¬∃ r : InverseResult, (inverse initialState 0 (-200)).1 = some r := by
  rintro ⟨r, hr⟩
  have hnone : (inverse initialState 0 (-200)).1 = none := inverseCalc_default_neg200
  rw [hnone] at hr
  exact Option.noConfusion hr

end Kinematics

namespace Kinematics

open Real

/-- Rejection of the deep-reach target `(0, 250)` by `inverse` in the default
configuration: the min-y elbow selection produces a left servo angle of about
`103.7` degrees, beyond the `60.1` bound, so the constraint check rejects. -/
theorem inverseCalc_default_250 :
    inverseCalc defaultConfig (effProps initialState) 0 250 = none := by
  have s129l : (113 : ℝ) ≤ Real.sqrt 12900 := sqrt_lb (by norm_num) (by norm_num)
  have s129u : Real.sqrt 12900 ≤ 114 := sqrt_ub (by norm_num) (by norm_num)
  have s674l : (259 : ℝ) ≤ Real.sqrt 67400 := sqrt_lb (by norm_num) (by norm_num)
  have s674u : Real.sqrt 67400 ≤ 260 := sqrt_ub (by norm_num) (by norm_num)
  have hd674pos : (0 : ℝ) < Real.sqrt 67400 := by positivity
  have hdL : cdist (-70) 0 0 250 = Real.sqrt 67400 := by
    rw [cdist]
    norm_num
  have hdR : cdist 70 0 0 250 = Real.sqrt 67400 := by
    rw [cdist]
    norm_num
  have hcond : ¬(Real.sqrt 67400 > Real.sqrt 12900 + 180 ∨
      Real.sqrt 67400 < |Real.sqrt 12900 - 180| ∨ Real.sqrt 67400 = 0) := by
    push_neg
    refine ⟨by linarith, ?_, by linarith⟩
    rw [abs_of_nonpos (by linarith)]
    linarith
  have hLfull := gci_eq (-70) 0 (Real.sqrt 12900) 0 250 180
  rw [hdL, if_neg hcond] at hLfull
  have hRfull := gci_eq 70 0 (Real.sqrt 12900) 0 250 180
  rw [hdR, if_neg hcond] at hRfull
  set A3 := aOff (Real.sqrt 12900) 180 (Real.sqrt 67400) with hA3def
  set H3 := hOff (Real.sqrt 12900) A3 with hH3def
  have hA3pos : 0 < A3 := by
    rw [hA3def, aOff, Real.mul_self_sqrt (by norm_num : (0 : ℝ) ≤ 12900),
      Real.mul_self_sqrt (by norm_num : (0 : ℝ) ≤ 67400)]
    apply div_pos (by norm_num) (by positivity)
  have hA3sq : A3 * A3 = 5736025 / 674 := by
    rw [hA3def, aOff, Real.mul_self_sqrt (by norm_num : (0 : ℝ) ≤ 12900),
      Real.mul_self_sqrt (by norm_num : (0 : ℝ) ≤ 67400), div_mul_div_comm,
      show (2 * Real.sqrt 67400) * (2 * Real.sqrt 67400) =
        4 * (Real.sqrt 67400 * Real.sqrt 67400) by ring,
      Real.mul_self_sqrt (by norm_num : (0 : ℝ) ≤ 67400)]
    norm_num
  have harg : Real.sqrt 12900 * Real.sqrt 12900 - A3 * A3 = 2958575 / 674 := by
    rw [Real.mul_self_sqrt (by norm_num : (0 : ℝ) ≤ 12900), hA3sq]
    norm_num
  have hH3sq : H3 * H3 = 2958575 / 674 := by
    rw [hH3def, hOff, harg, Real.mul_self_sqrt (by norm_num : (0 : ℝ) ≤ 2958575 / 674)]
  have hH3pos : 0 < H3 := by
    rw [hH3def, hOff]
    apply Real.sqrt_pos.mpr
    rw [harg]
    norm_num
  have h9A16H : 9 * A3 < 16 * H3 := by
    apply lt_of_pow_lt_pow_left 2 (by linarith)
    have e1 : (9 * A3) ^ 2 = 81 * (A3 * A3) := by ring
    have e2 : (16 * H3) ^ 2 = 256 * (H3 * H3) := by ring
    rw [e1, e2, hA3sq, hH3sq]
    norm_num
  have h7H25A : 7 * H3 < 25 * A3 := by
    apply lt_of_pow_lt_pow_left 2 (by linarith)
    have e1 : (7 * H3) ^ 2 = 49 * (H3 * H3) := by ring
    have e2 : (25 * A3) ^ 2 = 625 * (A3 * A3) := by ring
    rw [e1, e2, hA3sq, hH3sq]
    norm_num
  have hvx_pos : 0 < -70 + A3 * ((0 - -70) / Real.sqrt 67400) +
      H3 * ((250 - 0) / Real.sqrt 67400) - -70 := by
    have t1 : 0 < A3 * ((0 - -(70 : ℝ)) / Real.sqrt 67400) :=
      mul_pos hA3pos (div_pos (by norm_num) hd674pos)
    have t2 : 0 < H3 * ((250 - (0 : ℝ)) / Real.sqrt 67400) :=
      mul_pos hH3pos (div_pos (by norm_num) hd674pos)
    linarith
  have hvy_pos : 0 < 0 + A3 * ((250 - 0) / Real.sqrt 67400) -
      H3 * ((0 - -70) / Real.sqrt 67400) - 0 := by
    have e : (0 : ℝ) + A3 * ((250 - 0) / Real.sqrt 67400) -
        H3 * ((0 - -70) / Real.sqrt 67400) - 0 =
        (10 * (25 * A3) - 10 * (7 * H3)) / Real.sqrt 67400 := by ring
    rw [e]
    apply div_pos (by linarith) hd674pos
  have hvyx : 0 + A3 * ((250 - 0) / Real.sqrt 67400) - H3 * ((0 - -70) / Real.sqrt 67400) - 0
      < -70 + A3 * ((0 - -70) / Real.sqrt 67400) + H3 * ((250 - 0) / Real.sqrt 67400)
        - -70 := by
    have e : (-70 + A3 * ((0 - -70) / Real.sqrt 67400) +
        H3 * ((250 - 0) / Real.sqrt 67400) - -70) -
        (0 + A3 * ((250 - 0) / Real.sqrt 67400) - H3 * ((0 - -70) / Real.sqrt 67400) - 0) =
        (20 * (16 * H3) - 20 * (9 * A3)) / Real.sqrt 67400 := by ring
    have hpos : (0 : ℝ) < (20 * (16 * H3) - 20 * (9 * A3)) / Real.sqrt 67400 :=
      div_pos (by linarith) hd674pos
    linarith [e ▸ hpos]
  refine inverseCalc_none_of_guardL_nums default_SLx
    (show (SLpt defaultConfig).y = 0 from rfl) default_SRx
    (show (SRpt defaultConfig).y = 0 from rfl) default_L_EFF
    (show defaultConfig.L_MAIN = 180 from rfl) default_PHI hLfull hRfull ?_ ?_
  · dsimp only
    have hq : 0 < H3 * ((0 - -70) / Real.sqrt 67400) :=
      mul_pos hH3pos (div_pos (by norm_num) hd674pos)
    linarith [hq]
  · dsimp only
    apply dL_gt_of_lt_half_pi
    have hatan_lt := atan2_lt_pi_div_four hvx_pos hvy_pos hvyx
    linarith [hatan_lt, default_PHI_lt_pi_div_four]

/-- C3: under the default configuration, `inverse(0, 250)` returns not-found,
in contradiction with the repository's own unit test. -/
theorem inverse_default_250_not_found : (inverse initialState 0 250).1 = none :=
  inverseCalc_default_250

end Kinematics

namespace Kinematics

open Real

/-- Reduction of `forwardCalc` on a successful circle intersection, taking the
numeric elbow coordinates through explicit equations. -/
theorem forwardCalc_some_nums {c : Config} {pr : Props} {dL dR : ℝ}
    {ex ey fx fy lm : ℝ} {p₀ p₁ : Point}
    (hex : (fwdElbowL c pr dL).x = ex) (hey : (fwdElbowL c pr dL).y = ey)
    (hfx : (fwdElbowR c pr dR).x = fx) (hfy : (fwdElbowR c pr dR).y = fy)
    (hlm : c.L_MAIN = lm)
    (hg : getCircleIntersections ex ey lm fx fy lm = some (p₀, p₁)) :
    forwardCalc c pr dL dR = some ⟨if p₀.y > p₁.y then p₀ else p₁, SLpt c, SRpt c,
      fwdElbowL c pr dL, fwdElbowR c pr dR⟩ := by
  subst hex
  subst hey
  subst hfx
  subst hfy
  subst hlm
  simp only [forwardCalc]
  rw [hg]

/-- Reduction of `forwardCalc` on a failed circle intersection. -/
theorem forwardCalc_none_nums {c : Config} {pr : Props} {dL dR : ℝ}
    {ex ey fx fy lm : ℝ}
    (hex : (fwdElbowL c pr dL).x = ex) (hey : (fwdElbowL c pr dL).y = ey)
    (hfx : (fwdElbowR c pr dR).x = fx) (hfy : (fwdElbowR c pr dR).y = fy)
    (hlm : c.L_MAIN = lm)
    (hg : getCircleIntersections ex ey lm fx fy lm = none) :
    forwardCalc c pr dL dR = none := by
  subst hex
  subst hey
  subst hfx
  subst hfy
  subst hlm
  simp only [forwardCalc]
  rw [hg]

/-- Sine of the default phase offset. -/
theorem default_sin_PHI :
    Real.sin (Real.arcsin (40 * Real.sqrt 3 / Real.sqrt 12900)) =
      40 * Real.sqrt 3 / Real.sqrt 12900 := by
  have h1 : (40 : ℝ) * Real.sqrt 3 = Real.sqrt 4800 := by
    rw [show (4800 : ℝ) = 40 ^ 2 * 3 by norm_num, Real.sqrt_mul (by positivity),
      Real.sqrt_sq (by norm_num)]
  have hle : 40 * Real.sqrt 3 / Real.sqrt 12900 ≤ 1 := by
    rw [div_le_one (Real.sqrt_pos.mpr (by norm_num)), h1]
    exact Real.sqrt_le_sqrt (by norm_num)
  have hge : (0 : ℝ) ≤ 40 * Real.sqrt 3 / Real.sqrt 12900 := by positivity
  exact Real.sin_arcsin (by linarith) hle

/-- Cosine of the default phase offset. -/
theorem default_cos_PHI :
    Real.cos (Real.arcsin (40 * Real.sqrt 3 / Real.sqrt 12900)) = Real.sqrt (27 / 43) := by
  rw [Real.cos_arcsin]
  congr 1
  rw [div_pow, mul_pow, Real.sq_sqrt (by norm_num : (0 : ℝ) ≤ 3),
    Real.sq_sqrt (by norm_num : (0 : ℝ) ≤ 12900)]
  norm_num

/-- Crank length times the cosine factor of the phase offset. -/
theorem sqrt12900_mul_sqrt2743 : Real.sqrt 12900 * Real.sqrt (27 / 43) = 90 := by
  rw [← Real.sqrt_mul (by norm_num : (0 : ℝ) ≤ 12900),
    show (12900 : ℝ) * (27 / 43) = 8100 by norm_num,
    show (8100 : ℝ) = 90 ^ 2 by norm_num, Real.sqrt_sq (by norm_num)]

/-- Crank length times the sine factor of the phase offset. -/
theorem sqrt12900_mul_q :
    Real.sqrt 12900 * (40 * Real.sqrt 3 / Real.sqrt 12900) = 40 * Real.sqrt 3 := by
  have h : Real.sqrt 12900 ≠ 0 := by positivity
  field_simp

/-- Left virtual elbow of `forward(0, ·)` under the default configuration. -/
theorem default_fwdElbowL_zero :
    fwdElbowL defaultConfig (effProps initialState) 0 = ⟨-160, 40 * Real.sqrt 3⟩ := by
  ext
  · show -(140 : ℝ) / 2 + (effProps initialState).L_EFF *
        Real.cos ((180 - 0) * π / 180 - (effProps initialState).PHI) = -160
    rw [default_L_EFF, default_PHI, show ((180 : ℝ) - 0) * π / 180 = π by ring,
      Real.cos_pi_sub, default_cos_PHI]
    have h90 := sqrt12900_mul_sqrt2743
    nlinarith [h90]
  · show (0 : ℝ) + (effProps initialState).L_EFF *
        Real.sin ((180 - 0) * π / 180 - (effProps initialState).PHI) = 40 * Real.sqrt 3
    rw [default_L_EFF, default_PHI, show ((180 : ℝ) - 0) * π / 180 = π by ring,
      Real.sin_pi_sub, default_sin_PHI, sqrt12900_mul_q]
    ring

/-- Right virtual elbow of `forward(·, 0)` under the default configuration. -/
theorem default_fwdElbowR_zero :
    fwdElbowR defaultConfig (effProps initialState) 0 = ⟨160, 40 * Real.sqrt 3⟩ := by
  ext
  · show (140 : ℝ) / 2 + (effProps initialState).L_EFF *
        Real.cos ((0 + 0) * π / 180 + (effProps initialState).PHI) = 160
    rw [default_L_EFF, default_PHI, show ((0 : ℝ) + 0) * π / 180 = 0 by ring, zero_add,
      default_cos_PHI]
    have h90 := sqrt12900_mul_sqrt2743
    nlinarith [h90]
  · show (0 : ℝ) + (effProps initialState).L_EFF *
        Real.sin ((0 + 0) * π / 180 + (effProps initialState).PHI) = 40 * Real.sqrt 3
    rw [default_L_EFF, default_PHI,
      show ((0 : ℝ) + 0) * π / 180 + Real.arcsin (40 * Real.sqrt 3 / Real.sqrt 12900) =
        Real.arcsin (40 * Real.sqrt 3 / Real.sqrt 12900) by ring,
      default_sin_PHI, sqrt12900_mul_q]
    ring

end Kinematics

namespace Kinematics

open Real

/-- Left virtual elbow of `forward(-30, ·)` under the default configuration. -/
theorem default_fwdElbowL_neg30 :
    fwdElbowL defaultConfig (effProps initialState) (-30) =
      ⟨-70 - 65 * Real.sqrt 3, 15⟩ := by
  have hcos76 : Real.cos (7 * π / 6) = -(Real.sqrt 3 / 2) := by
    rw [show (7 : ℝ) * π / 6 = π + π / 6 by ring, Real.cos_add, Real.cos_pi, Real.sin_pi,
      Real.cos_pi_div_six]
    ring
  have hsin76 : Real.sin (7 * π / 6) = -(1 / 2) := by
    rw [show (7 : ℝ) * π / 6 = π + π / 6 by ring, Real.sin_add, Real.cos_pi, Real.sin_pi,
      Real.sin_pi_div_six]
    ring
  ext
  · show -(140 : ℝ) / 2 + (effProps initialState).L_EFF *
        Real.cos ((180 - -30) * π / 180 - (effProps initialState).PHI) = -70 - 65 * Real.sqrt 3
    rw [default_L_EFF, default_PHI, show ((180 : ℝ) - -30) * π / 180 = 7 * π / 6 by ring,
      Real.cos_sub, hcos76, hsin76, default_cos_PHI, default_sin_PHI]
    have h90 := sqrt12900_mul_sqrt2743
    have h40 := sqrt12900_mul_q
    have h33 : Real.sqrt 3 * Real.sqrt 3 = 3 := Real.mul_self_sqrt (by norm_num)
    linear_combination (-(Real.sqrt 3 / 2)) * h90 - (1 / 2) * h40
  · show (0 : ℝ) + (effProps initialState).L_EFF *
        Real.sin ((180 - -30) * π / 180 - (effProps initialState).PHI) = 15
    rw [default_L_EFF, default_PHI, show ((180 : ℝ) - -30) * π / 180 = 7 * π / 6 by ring,
      Real.sin_sub, hcos76, hsin76, default_cos_PHI, default_sin_PHI]
    have h90 := sqrt12900_mul_sqrt2743
    have h40 := sqrt12900_mul_q
    have h33 : Real.sqrt 3 * Real.sqrt 3 = 3 := Real.mul_self_sqrt (by norm_num)
    linear_combination (-(1 / 2)) * h90 + (Real.sqrt 3 / 2) * h40 + 20 * h33

/-- Right virtual elbow of `forward(·, -30)` under the default configuration. -/
theorem default_fwdElbowR_neg30 :
    fwdElbowR defaultConfig (effProps initialState) (-30) =
      ⟨70 + 65 * Real.sqrt 3, 15⟩ := by
  ext
  · show (140 : ℝ) / 2 + (effProps initialState).L_EFF *
        Real.cos ((0 + -30) * π / 180 + (effProps initialState).PHI) = 70 + 65 * Real.sqrt 3
    rw [default_L_EFF, default_PHI,
      show ((0 : ℝ) + -30) * π / 180 + Real.arcsin (40 * Real.sqrt 3 / Real.sqrt 12900) =
        Real.arcsin (40 * Real.sqrt 3 / Real.sqrt 12900) - π / 6 by ring,
      Real.cos_sub, Real.cos_pi_div_six, Real.sin_pi_div_six, default_cos_PHI,
      default_sin_PHI]
    have h90 := sqrt12900_mul_sqrt2743
    have h40 := sqrt12900_mul_q
    have h33 : Real.sqrt 3 * Real.sqrt 3 = 3 := Real.mul_self_sqrt (by norm_num)
    linear_combination (Real.sqrt 3 / 2) * h90 + (1 / 2) * h40
  · show (0 : ℝ) + (effProps initialState).L_EFF *
        Real.sin ((0 + -30) * π / 180 + (effProps initialState).PHI) = 15
    rw [default_L_EFF, default_PHI,
      show ((0 : ℝ) + -30) * π / 180 + Real.arcsin (40 * Real.sqrt 3 / Real.sqrt 12900) =
        Real.arcsin (40 * Real.sqrt 3 / Real.sqrt 12900) - π / 6 by ring,
      Real.sin_sub, Real.cos_pi_div_six, Real.sin_pi_div_six, default_cos_PHI,
      default_sin_PHI]
    have h90 := sqrt12900_mul_sqrt2743
    have h40 := sqrt12900_mul_q
    have h33 : Real.sqrt 3 * Real.sqrt 3 = 3 := Real.mul_self_sqrt (by norm_num)
    linear_combination (Real.sqrt 3 / 2) * h40 - (1 / 2) * h90 + 20 * h33

/-- At `(-30, -30)` the two virtual elbows are `140 + 130·√3 ≈ 365.2` apart,
farther than `2 · 180`, so the main-arm circles do not intersect. -/
theorem forwardCalc_default_neg30 :
    forwardCalc defaultConfig (effProps initialState) (-30) (-30) = none := by
  apply forwardCalc_none_nums (congrArg Point.x default_fwdElbowL_neg30)
    (congrArg Point.y default_fwdElbowL_neg30) (congrArg Point.x default_fwdElbowR_neg30)
    (congrArg Point.y default_fwdElbowR_neg30) (show defaultConfig.L_MAIN = 180 from rfl)
  have hd : cdist (-70 - 65 * Real.sqrt 3) 15 (70 + 65 * Real.sqrt 3) 15 =
      140 + 130 * Real.sqrt 3 := by
    rw [cdist, show (70 + 65 * Real.sqrt 3 - (-70 - 65 * Real.sqrt 3)) *
        (70 + 65 * Real.sqrt 3 - (-70 - 65 * Real.sqrt 3)) +
        ((15 : ℝ) - 15) * (15 - 15) = (140 + 130 * Real.sqrt 3) ^ 2 by ring]
    exact Real.sqrt_sq (by positivity)
  have h3l : (1.7 : ℝ) ≤ Real.sqrt 3 := sqrt_lb (by norm_num) (by norm_num)
  rw [gci_eq, hd, if_pos (Or.inl (by norm_num; nlinarith))]

/-- Pen point of `forward(0, 0)` under the default configuration. -/
theorem forwardCalc_default_zero :
    ∃ r : ForwardResult, forwardCalc defaultConfig (effProps initialState) 0 0 = some r ∧
      r.P.x = 0 ∧ r.P.y = 40 * Real.sqrt 3 + Real.sqrt 6800 := by
  have hd : cdist (-160) (40 * Real.sqrt 3) 160 (40 * Real.sqrt 3) = 320 := by
    rw [cdist, show ((160 : ℝ) - -160) * (160 - -160) +
        (40 * Real.sqrt 3 - 40 * Real.sqrt 3) * (40 * Real.sqrt 3 - 40 * Real.sqrt 3) =
        320 ^ 2 by ring]
    exact Real.sqrt_sq (by norm_num)
  have hcond : ¬((320 : ℝ) > 180 + 180 ∨ (320 : ℝ) < |(180 : ℝ) - 180| ∨ (320 : ℝ) = 0) := by
    norm_num
  have hA : aOff 180 180 320 = 160 := by
    rw [aOff]
    norm_num
  have hH : hOff 180 (160 : ℝ) = Real.sqrt 6800 := by
    rw [hOff]
    norm_num
  have hg := gci_eq (-160) (40 * Real.sqrt 3) 180 160 (40 * Real.sqrt 3) 180
  rw [hd, if_neg hcond, hA, hH] at hg
  have hsome := forwardCalc_some_nums (congrArg Point.x default_fwdElbowL_zero)
    (congrArg Point.y default_fwdElbowL_zero) (congrArg Point.x default_fwdElbowR_zero)
    (congrArg Point.y default_fwdElbowR_zero) (show defaultConfig.L_MAIN = 180 from rfl) hg
  refine ⟨_, hsome, ?_, ?_⟩
  · show (if (40 * Real.sqrt 3 + 160 * ((40 * Real.sqrt 3 - 40 * Real.sqrt 3) / 320) -
        Real.sqrt 6800 * ((160 - -160) / 320) : ℝ) >
        40 * Real.sqrt 3 + 160 * ((40 * Real.sqrt 3 - 40 * Real.sqrt 3) / 320) +
        Real.sqrt 6800 * ((160 - -160) / 320) then
        (⟨-160 + 160 * ((160 - -160) / 320) +
            Real.sqrt 6800 * ((40 * Real.sqrt 3 - 40 * Real.sqrt 3) / 320),
          40 * Real.sqrt 3 + 160 * ((40 * Real.sqrt 3 - 40 * Real.sqrt 3) / 320) -
            Real.sqrt 6800 * ((160 - -160) / 320)⟩ : Point)
      else
        ⟨-160 + 160 * ((160 - -160) / 320) -
            Real.sqrt 6800 * ((40 * Real.sqrt 3 - 40 * Real.sqrt 3) / 320),
          40 * Real.sqrt 3 + 160 * ((40 * Real.sqrt 3 - 40 * Real.sqrt 3) / 320) +
            Real.sqrt 6800 * ((160 - -160) / 320)⟩).x = 0
    rw [if_neg (by
      have h68 : (0 : ℝ) ≤ Real.sqrt 6800 * ((160 - -160) / 320) :=
        mul_nonneg (Real.sqrt_nonneg _) (by norm_num)
      push_neg
      linarith)]
    show -160 + 160 * (((160 : ℝ) - -160) / 320) -
        Real.sqrt 6800 * ((40 * Real.sqrt 3 - 40 * Real.sqrt 3) / 320) = 0
    ring
  · show (if (40 * Real.sqrt 3 + 160 * ((40 * Real.sqrt 3 - 40 * Real.sqrt 3) / 320) -
        Real.sqrt 6800 * ((160 - -160) / 320) : ℝ) >
        40 * Real.sqrt 3 + 160 * ((40 * Real.sqrt 3 - 40 * Real.sqrt 3) / 320) +
        Real.sqrt 6800 * ((160 - -160) / 320) then
        (⟨-160 + 160 * ((160 - -160) / 320) +
            Real.sqrt 6800 * ((40 * Real.sqrt 3 - 40 * Real.sqrt 3) / 320),
          40 * Real.sqrt 3 + 160 * ((40 * Real.sqrt 3 - 40 * Real.sqrt 3) / 320) -
            Real.sqrt 6800 * ((160 - -160) / 320)⟩ : Point)
      else
        ⟨-160 + 160 * ((160 - -160) / 320) -
            Real.sqrt 6800 * ((40 * Real.sqrt 3 - 40 * Real.sqrt 3) / 320),
          40 * Real.sqrt 3 + 160 * ((40 * Real.sqrt 3 - 40 * Real.sqrt 3) / 320) +
            Real.sqrt 6800 * ((160 - -160) / 320)⟩).y = 40 * Real.sqrt 3 + Real.sqrt 6800
    rw [if_neg (by
      have h68 : (0 : ℝ) ≤ Real.sqrt 6800 * ((160 - -160) / 320) :=
        mul_nonneg (Real.sqrt_nonneg _) (by norm_num)
      push_neg
      linarith)]
    show 40 * Real.sqrt 3 + 160 * ((40 * Real.sqrt 3 - 40 * Real.sqrt 3) / 320) +
        Real.sqrt 6800 * (((160 : ℝ) - -160) / 320) = 40 * Real.sqrt 3 + Real.sqrt 6800
    ring

/-- C7 counterexample: `forward(-30, -30)` does not succeed under the default
configuration, contrary to the claim. -/
theorem forward_default_neg30_not_found : (forward initialState (-30) (-30)).1 = none :=
  forwardCalc_default_neg30

/-- C7 (amended): under the default configuration `forward(0, 0)` succeeds with
pen `(0, 40·√3 + √6800)`, while `forward(-30, -30)` returns not-found (its
virtual elbows are farther apart than twice the main-arm length), so the pen
comparison of the original claim has no left-hand side. -/
theorem forward_default_zero_ok_neg30_unreachable :
    (∃ r : ForwardResult, (forward initialState 0 0).1 = some r ∧
      r.P.x = 0 ∧ r.P.y = 40 * Real.sqrt 3 + Real.sqrt 6800) ∧
    (forward initialState (-30) (-30)).1 = none :=
  ⟨forwardCalc_default_zero, forwardCalc_default_neg30⟩

end Kinematics

namespace Kinematics

open Real

/-- The lazy `recalcProps` guard is idempotent across the state returned by a
solve: a second solve started from the returned state uses the same derived
properties. -/
theorem effProps_state_idem (s : State) : effProps ⟨s.CONFIG, effProps s⟩ = effProps s := by
  by_cases h : s.props.L_EFF = 0
  · have h1 : effProps s = recalcProps s.CONFIG := if_pos h
    show (if (effProps s).L_EFF = 0 then recalcProps s.CONFIG else effProps s) = effProps s
    rw [h1]
    exact ite_self _
  · have h1 : effProps s = s.props := if_neg h
    show (if (effProps s).L_EFF = 0 then recalcProps s.CONFIG else effProps s) = effProps s
    rw [h1, if_neg h]

/-- Polar reconstruction: a vector of length `r` is recovered from the angle
`Math.atan2` assigns to it. -/
theorem atan2_cos_sin {vx vy r : ℝ} (hr : 0 ≤ r) (hnorm : vx ^ 2 + vy ^ 2 = r ^ 2) :
    r * Real.cos (atan2 vy vx) = vx ∧ r * Real.sin (atan2 vy vx) = vy := by
  rcases eq_or_lt_of_le hr with heq | hrpos
  · subst heq
    have hvx : vx = 0 := by nlinarith [sq_nonneg vx, sq_nonneg vy]
    have hvy : vy = 0 := by nlinarith [sq_nonneg vx, sq_nonneg vy]
    rw [hvx, hvy]
    exact ⟨zero_mul _, zero_mul _⟩
  · have hrne : r ≠ 0 := ne_of_gt hrpos
    have habs : Complex.abs ⟨vx, vy⟩ = r := by
      rw [Complex.abs_apply, Complex.normSq_mk,
        show vx * vx + vy * vy = r ^ 2 by linear_combination hnorm]
      exact Real.sqrt_sq (le_of_lt hrpos)
    have hzne : (⟨vx, vy⟩ : ℂ) ≠ 0 := by
      intro h0
      rw [h0, map_zero] at habs
      exact hrne habs.symm
    constructor
    · rw [atan2, Complex.cos_arg hzne, habs]
      show r * (vx / r) = vx
      field_simp
    · rw [atan2, Complex.sin_arg, habs]
      show r * (vy / r) = vy
      field_simp

/-- Inversion of a successful elbow selection: each selected elbow lies on its
crank circle and on the main-arm circle around the target, and both radii are
nonnegative. -/
theorem inverseElbows_some_elim {c : Config} {pr : Props} {x y : ℝ} {EL ER : Point}
    (h : inverseElbows c pr x y = some (EL, ER)) :
    ((EL.x - (SLpt c).x) ^ 2 + (EL.y - (SLpt c).y) ^ 2 = pr.L_EFF ^ 2 ∧
      (EL.x - x) ^ 2 + (EL.y - y) ^ 2 = c.L_MAIN ^ 2) ∧
    ((ER.x - (SRpt c).x) ^ 2 + (ER.y - (SRpt c).y) ^ 2 = pr.L_EFF ^ 2 ∧
      (ER.x - x) ^ 2 + (ER.y - y) ^ 2 = c.L_MAIN ^ 2) ∧
    0 ≤ pr.L_EFF ∧ 0 ≤ c.L_MAIN := by
  unfold inverseElbows at h
  cases hgl : getCircleIntersections (SLpt c).x (SLpt c).y pr.L_EFF x y c.L_MAIN with
  | none =>
      cases hgr : getCircleIntersections (SRpt c).x (SRpt c).y pr.L_EFF x y c.L_MAIN with
      | none => rw [hgl, hgr] at h; exact absurd h (by simp)
      | some pb => rw [hgl, hgr] at h; exact absurd h (by simp)
  | some pa =>
      obtain ⟨a₀, a₁⟩ := pa
      cases hgr : getCircleIntersections (SRpt c).x (SRpt c).y pr.L_EFF x y c.L_MAIN with
      | none => rw [hgl, hgr] at h; exact absurd h (by simp)
      | some pb =>
          obtain ⟨b₀, b₁⟩ := pb
          rw [hgl, hgr] at h
          dsimp only at h
          have hinj := Option.some.inj h
          have hEL : (if a₀.y < a₁.y then a₀ else a₁) = EL := congrArg Prod.fst hinj
          have hER : (if b₀.y < b₁.y then b₀ else b₁) = ER := congrArg Prod.snd hinj
          have hma := gci_mem hgl
          have hmb := gci_mem hgr
          refine ⟨?_, ?_, hma.2.2.2.2.1, hma.2.2.2.2.2⟩
          · by_cases hc : a₀.y < a₁.y
            · rw [if_pos hc] at hEL
              rw [← hEL]
              exact ⟨hma.1, hma.2.1⟩
            · rw [if_neg hc] at hEL
              rw [← hEL]
              exact ⟨hma.2.2.1, hma.2.2.2.1⟩
          · by_cases hc : b₀.y < b₁.y
            · rw [if_pos hc] at hER
              rw [← hER]
              exact ⟨hmb.1, hmb.2.1⟩
            · rw [if_neg hc] at hER
              rw [← hER]
              exact ⟨hmb.2.2.1, hmb.2.2.2.1⟩

/-- Inversion of a successful constraint check: the returned servo pair is
exactly the angle pair computed from the selected elbows. -/
theorem inverseCalc_some_elim {c : Config} {pr : Props} {x y : ℝ} {r : InverseResult}
    {EL ER : Point}
    (helb : inverseElbows c pr x y = some (EL, ER))
    (h : inverseCalc c pr x y = some r) :
    r.thetaL = 180 - (atan2 (EL.y - (SLpt c).y) (EL.x - (SLpt c).x) + pr.PHI) * 180 / π ∧
    r.thetaR = (atan2 (ER.y - (SRpt c).y) (ER.x - (SRpt c).x) - pr.PHI) * 180 / π := by
  have hAng : inverseAngles c pr x y =
      some (180 - (atan2 (EL.y - (SLpt c).y) (EL.x - (SLpt c).x) + pr.PHI) * 180 / π,
        (atan2 (ER.y - (SRpt c).y) (ER.x - (SRpt c).x) - pr.PHI) * 180 / π) := by
    rw [inverseAngles, helb, Option.map_some']
  unfold inverseCalc at h
  rw [hAng] at h
  dsimp only at h
  split at h
  · exact Option.noConfusion h
  · have hinj := Option.some.inj h
    exact ⟨(congrArg InverseResult.thetaL hinj).symm, (congrArg InverseResult.thetaR hinj).symm⟩

/-- Reduction of `inverseCalc` to a successful servo pair, taking the numeric
values of the shoulder coordinates, configuration fields, selections and angles
through explicit equations. -/
theorem inverseCalc_some_nums {c : Config} {pr : Props} {x y : ℝ}
    {sx sy rx ry le lm phi dLv dRv : ℝ} {a₀ a₁ b₀ b₁ EL ER : Point}
    (hsx : (SLpt c).x = sx) (hsy : (SLpt c).y = sy)
    (hrx : (SRpt c).x = rx) (hry : (SRpt c).y = ry)
    (hle : pr.L_EFF = le) (hlm : c.L_MAIN = lm) (hphi : pr.PHI = phi)
    (hL : getCircleIntersections sx sy le x y lm = some (a₀, a₁))
    (hR : getCircleIntersections rx ry le x y lm = some (b₀, b₁))
    (hselL : (if a₀.y < a₁.y then a₀ else a₁) = EL)
    (hselR : (if b₀.y < b₁.y then b₀ else b₁) = ER)
    (hdL : 180 - (atan2 (EL.y - sy) (EL.x - sx) + phi) * 180 / π = dLv)
    (hdR : (atan2 (ER.y - ry) (ER.x - rx) - phi) * 180 / π = dRv)
    (hok : ¬(dLv < -30.1 ∨ dLv > 60.1 ∨ dRv < -30.1 ∨ dRv > 60.1)) :
    inverseCalc c pr x y = some ⟨dLv, dRv⟩ := by
  subst hsx
  subst hsy
  subst hrx
  subst hry
  subst hle
  subst hlm
  subst hphi
  have hE : inverseElbows c pr x y = some (EL, ER) := by
    unfold inverseElbows
    rw [hL, hR]
    dsimp only
    rw [hselL, hselR]
  have hAng : inverseAngles c pr x y = some (dLv, dRv) := by
    rw [inverseAngles, hE, Option.map_some']
    dsimp only
    rw [hdL, hdR]
  unfold inverseCalc
  rw [hAng]
  dsimp only
  rw [if_neg hok]

/-- Reflection across the elbow chord written out coordinate-wise. -/
theorem reflectAcross_eq (A B P : Point) :
    reflectAcross A B P =
      ⟨2 * (A.x + ((P.x - A.x) * (B.x - A.x) + (P.y - A.y) * (B.y - A.y)) /
          ((B.x - A.x) * (B.x - A.x) + (B.y - A.y) * (B.y - A.y)) * (B.x - A.x)) - P.x,
       2 * (A.y + ((P.x - A.x) * (B.x - A.x) + (P.y - A.y) * (B.y - A.y)) /
          ((B.x - A.x) * (B.x - A.x) + (B.y - A.y) * (B.y - A.y)) * (B.y - A.y)) - P.y⟩ :=
  rfl

/-- Reflecting a common point of two circles across the line joining their
centers lands on both circles again. -/
theorem reflect_on_circles (A B P : Point) (hAB : A ≠ B) (rA rB : ℝ)
    (hA : (P.x - A.x) ^ 2 + (P.y - A.y) ^ 2 = rA ^ 2)
    (hB : (P.x - B.x) ^ 2 + (P.y - B.y) ^ 2 = rB ^ 2) :
    ((reflectAcross A B P).x - A.x) ^ 2 + ((reflectAcross A B P).y - A.y) ^ 2 = rA ^ 2 ∧
    ((reflectAcross A B P).x - B.x) ^ 2 + ((reflectAcross A B P).y - B.y) ^ 2 = rB ^ 2 := by
  have hw : (B.x - A.x) * (B.x - A.x) + (B.y - A.y) * (B.y - A.y) ≠ 0 := by
    intro h0
    have hx0 : B.x - A.x = 0 := by
      nlinarith [mul_self_nonneg (B.x - A.x), mul_self_nonneg (B.y - A.y)]
    have hy0 : B.y - A.y = 0 := by
      nlinarith [mul_self_nonneg (B.x - A.x), mul_self_nonneg (B.y - A.y)]
    exact hAB (Point.ext (by linarith) (by linarith))
  constructor
  · rw [← hA]
    show (2 * (A.x + ((P.x - A.x) * (B.x - A.x) + (P.y - A.y) * (B.y - A.y)) /
        ((B.x - A.x) * (B.x - A.x) + (B.y - A.y) * (B.y - A.y)) * (B.x - A.x)) - P.x - A.x) ^ 2 +
      (2 * (A.y + ((P.x - A.x) * (B.x - A.x) + (P.y - A.y) * (B.y - A.y)) /
        ((B.x - A.x) * (B.x - A.x) + (B.y - A.y) * (B.y - A.y)) * (B.y - A.y)) - P.y - A.y) ^ 2 =
      (P.x - A.x) ^ 2 + (P.y - A.y) ^ 2
    field_simp
    ring
  · rw [← hB]
    show (2 * (A.x + ((P.x - A.x) * (B.x - A.x) + (P.y - A.y) * (B.y - A.y)) /
        ((B.x - A.x) * (B.x - A.x) + (B.y - A.y) * (B.y - A.y)) * (B.x - A.x)) - P.x - B.x) ^ 2 +
      (2 * (A.y + ((P.x - A.x) * (B.x - A.x) + (P.y - A.y) * (B.y - A.y)) /
        ((B.x - A.x) * (B.x - A.x) + (B.y - A.y) * (B.y - A.y)) * (B.y - A.y)) - P.y - B.y) ^ 2 =
      (P.x - B.x) ^ 2 + (P.y - B.y) ^ 2
    field_simp
    ring

end Kinematics

namespace Kinematics

open Real

/-- C1 (amended): the round trip holds conditionally. Whenever `inverse`
succeeds on a target `(x, y)`, the two selected elbows are distinct, and the
target lies strictly on the far side of the elbow chord from its reflection
(the configuration of the solutions actually picked by `forward`), then
`forward` applied to the returned servo pair, in the state returned by
`inverse`, succeeds and reproduces the pen point exactly — in particular
within the claimed `1e-3` distance. The unconditional claim is false: the
elbow-branch choices of `inverse` (min-y) and `forward` (max-y pen) are not
always compatible, see the counterexample. -/
theorem inverse_forward_round_trip (s : State) (x y dL dR : ℝ) (EL ER : Point)
    (hinv : (inverse s x y).1 = some ⟨dL, dR⟩)
    (helb : inverseElbows s.CONFIG (effProps s) x y = some (EL, ER))
    (hne : EL ≠ ER)
    (hmir : (reflectAcross EL ER ⟨x, y⟩).y < y) :
    ∃ res : ForwardResult,
      (forward ((inverse s x y).2) dL dR).1 = some res ∧ res.P.x = x ∧ res.P.y = y ∧
      Real.sqrt ((res.P.x - x) ^ 2 + (res.P.y - y) ^ 2) ≤ 1 / 1000 := by
  have hπ : (π : ℝ) ≠ 0 := Real.pi_ne_zero
  have hcalc : inverseCalc s.CONFIG (effProps s) x y = some ⟨dL, dR⟩ := hinv
  obtain ⟨hmemL, hmemR, hle0, hlm0⟩ := inverseElbows_some_elim helb
  have hdL' : dL = 180 -
      (atan2 (EL.y - (SLpt s.CONFIG).y) (EL.x - (SLpt s.CONFIG).x) + (effProps s).PHI) *
        180 / π :=
    (inverseCalc_some_elim helb hcalc).1
  have hdR' : dR =
      (atan2 (ER.y - (SRpt s.CONFIG).y) (ER.x - (SRpt s.CONFIG).x) - (effProps s).PHI) *
        180 / π :=
    (inverseCalc_some_elim helb hcalc).2
  have hfl : fwdElbowL s.CONFIG (effProps s) dL = EL := by
    have hang : (180 - dL) * π / 180 - (effProps s).PHI =
        atan2 (EL.y - (SLpt s.CONFIG).y) (EL.x - (SLpt s.CONFIG).x) := by
      rw [hdL']
      field_simp
    have hrec := atan2_cos_sin hle0 hmemL.1
    ext
    · show (SLpt s.CONFIG).x +
        (effProps s).L_EFF * Real.cos ((180 - dL) * π / 180 - (effProps s).PHI) = EL.x
      rw [hang]
      linarith [hrec.1]
    · show (SLpt s.CONFIG).y +
        (effProps s).L_EFF * Real.sin ((180 - dL) * π / 180 - (effProps s).PHI) = EL.y
      rw [hang]
      linarith [hrec.2]
  have hfr : fwdElbowR s.CONFIG (effProps s) dR = ER := by
    have hang : (0 + dR) * π / 180 + (effProps s).PHI =
        atan2 (ER.y - (SRpt s.CONFIG).y) (ER.x - (SRpt s.CONFIG).x) := by
      rw [hdR']
      field_simp
    have hrec := atan2_cos_sin hle0 hmemR.1
    ext
    · show (SRpt s.CONFIG).x +
        (effProps s).L_EFF * Real.cos ((0 + dR) * π / 180 + (effProps s).PHI) = ER.x
      rw [hang]
      linarith [hrec.1]
    · show (SRpt s.CONFIG).y +
        (effProps s).L_EFF * Real.sin ((0 + dR) * π / 180 + (effProps s).PHI) = ER.y
      rw [hang]
      linarith [hrec.2]
  have hd2 : cdist EL.x EL.y ER.x ER.y * cdist EL.x EL.y ER.x ER.y =
      (ER.x - EL.x) * (ER.x - EL.x) + (ER.y - EL.y) * (ER.y - EL.y) :=
    Real.mul_self_sqrt (add_nonneg (mul_self_nonneg _) (mul_self_nonneg _))
  have hdnn : 0 ≤ cdist EL.x EL.y ER.x ER.y := Real.sqrt_nonneg _
  have hdne : cdist EL.x EL.y ER.x ER.y ≠ 0 := by
    intro h0
    have hzero : (ER.x - EL.x) * (ER.x - EL.x) + (ER.y - EL.y) * (ER.y - EL.y) = 0 := by
      rw [← hd2, h0]
      ring
    have hx0 : ER.x - EL.x = 0 := by
      nlinarith [mul_self_nonneg (ER.x - EL.x), mul_self_nonneg (ER.y - EL.y)]
    have hy0 : ER.y - EL.y = 0 := by
      nlinarith [mul_self_nonneg (ER.x - EL.x), mul_self_nonneg (ER.y - EL.y)]
    exact hne (Point.ext (by linarith) (by linarith))
  have habsL : Complex.abs ⟨x - EL.x, y - EL.y⟩ = s.CONFIG.L_MAIN := by
    rw [Complex.abs_apply, Complex.normSq_mk,
      show (x - EL.x) * (x - EL.x) + (y - EL.y) * (y - EL.y) = s.CONFIG.L_MAIN ^ 2 by
        linear_combination hmemL.2]
    exact Real.sqrt_sq hlm0
  have habsR : Complex.abs ⟨x - ER.x, y - ER.y⟩ = s.CONFIG.L_MAIN := by
    rw [Complex.abs_apply, Complex.normSq_mk,
      show (x - ER.x) * (x - ER.x) + (y - ER.y) * (y - ER.y) = s.CONFIG.L_MAIN ^ 2 by
        linear_combination hmemR.2]
    exact Real.sqrt_sq hlm0
  have hcd : cdist EL.x EL.y ER.x ER.y = Complex.abs ⟨ER.x - EL.x, ER.y - EL.y⟩ := by
    rw [Complex.abs_apply, Complex.normSq_mk, cdist]
  have hzsub : (⟨ER.x - EL.x, ER.y - EL.y⟩ : ℂ) =
      (⟨x - EL.x, y - EL.y⟩ : ℂ) - ⟨x - ER.x, y - ER.y⟩ := by
    apply Complex.ext
    · rw [Complex.sub_re]
      show ER.x - EL.x = (x - EL.x) - (x - ER.x)
      ring
    · rw [Complex.sub_im]
      show ER.y - EL.y = (y - EL.y) - (y - ER.y)
      ring
  have htri : cdist EL.x EL.y ER.x ER.y ≤ s.CONFIG.L_MAIN + s.CONFIG.L_MAIN := by
    have tineq : Complex.abs ((⟨x - EL.x, y - EL.y⟩ : ℂ) - ⟨x - ER.x, y - ER.y⟩) ≤
        Complex.abs ⟨x - EL.x, y - EL.y⟩ + Complex.abs ⟨x - ER.x, y - ER.y⟩ := by
      rw [← Complex.norm_eq_abs, ← Complex.norm_eq_abs, ← Complex.norm_eq_abs]
      exact norm_sub_le _ _
    rw [hcd, hzsub]
    exact le_of_le_of_eq tineq (by rw [habsL, habsR])
  have hcond : ¬(cdist EL.x EL.y ER.x ER.y > s.CONFIG.L_MAIN + s.CONFIG.L_MAIN ∨
      cdist EL.x EL.y ER.x ER.y < |s.CONFIG.L_MAIN - s.CONFIG.L_MAIN| ∨
      cdist EL.x EL.y ER.x ER.y = 0) := by
    push_neg
    refine ⟨htri, ?_, hdne⟩
    rw [sub_self, abs_zero]
    exact hdnn
  obtain ⟨Q0, Q1, hg⟩ : ∃ p q : Point,
      getCircleIntersections EL.x EL.y s.CONFIG.L_MAIN ER.x ER.y s.CONFIG.L_MAIN =
        some (p, q) := by
    rw [gci_eq, if_neg hcond]
    exact ⟨_, _, rfl⟩
  have hzc1 : ((⟨x, y⟩ : Point).x - EL.x) ^ 2 + ((⟨x, y⟩ : Point).y - EL.y) ^ 2 =
      s.CONFIG.L_MAIN ^ 2 := by
    show (x - EL.x) ^ 2 + (y - EL.y) ^ 2 = s.CONFIG.L_MAIN ^ 2
    linear_combination hmemL.2
  have hzc2 : ((⟨x, y⟩ : Point).x - ER.x) ^ 2 + ((⟨x, y⟩ : Point).y - ER.y) ^ 2 =
      s.CONFIG.L_MAIN ^ 2 := by
    show (x - ER.x) ^ 2 + (y - ER.y) ^ 2 = s.CONFIG.L_MAIN ^ 2
    linear_combination hmemR.2
  have hpen := gci_complete hg ⟨x, y⟩ hzc1 hzc2
  have hrefl := reflect_on_circles EL ER ⟨x, y⟩ hne s.CONFIG.L_MAIN s.CONFIG.L_MAIN hzc1 hzc2
  have hmQ := gci_complete hg (reflectAcross EL ER ⟨x, y⟩) hrefl.1 hrefl.2
  have hmne : reflectAcross EL ER (⟨x, y⟩ : Point) ≠ (⟨x, y⟩ : Point) := by
    intro he
    rw [he] at hmir
    exact absurd hmir (lt_irrefl y)
  have hPsel : (if Q0.y > Q1.y then Q0 else Q1) = (⟨x, y⟩ : Point) := by
    rcases hpen with hp0 | hp1
    · rcases hmQ with hm0 | hm1
      · exact absurd (hm0.trans hp0.symm) hmne
      · have hy0 : y = Q0.y := congrArg Point.y hp0
        have hy1 : (reflectAcross EL ER (⟨x, y⟩ : Point)).y = Q1.y := congrArg Point.y hm1
        have hlt : Q1.y < Q0.y := by
          rw [← hy1, ← hy0]
          exact hmir
        rw [if_pos hlt]
        exact hp0.symm
    · rcases hmQ with hm0 | hm1
      · have hy1 : y = Q1.y := congrArg Point.y hp1
        have hy0 : (reflectAcross EL ER (⟨x, y⟩ : Point)).y = Q0.y := congrArg Point.y hm0
        have hlt : Q0.y < Q1.y := by
          rw [← hy0, ← hy1]
          exact hmir
        rw [if_neg (asymm hlt)]
        exact hp1.symm
      · exact absurd (hm1.trans hp1.symm) hmne
  have hres := forwardCalc_some_nums (congrArg Point.x hfl) (congrArg Point.y hfl)
    (congrArg Point.x hfr) (congrArg Point.y hfr) rfl hg
  have hstate : (forward ((inverse s x y).2) dL dR).1 =
      forwardCalc s.CONFIG (effProps s) dL dR := by
    show forwardCalc s.CONFIG (effProps ⟨s.CONFIG, effProps s⟩) dL dR =
      forwardCalc s.CONFIG (effProps s) dL dR
    rw [effProps_state_idem]
  refine ⟨⟨if Q0.y > Q1.y then Q0 else Q1, SLpt s.CONFIG, SRpt s.CONFIG,
      fwdElbowL s.CONFIG (effProps s) dL, fwdElbowR s.CONFIG (effProps s) dR⟩,
    by rw [hstate]; exact hres, ?_, ?_, ?_⟩
  · show (if Q0.y > Q1.y then Q0 else Q1).x = x
    rw [hPsel]
  · show (if Q0.y > Q1.y then Q0 else Q1).y = y
    rw [hPsel]
  · show Real.sqrt (((if Q0.y > Q1.y then Q0 else Q1).x - x) ^ 2 +
      ((if Q0.y > Q1.y then Q0 else Q1).y - y) ^ 2) ≤ 1 / 1000
    rw [hPsel]
    show Real.sqrt ((x - x) ^ 2 + (y - y) ^ 2) ≤ 1 / 1000
    rw [show ((x - x) ^ 2 + (y - y) ^ 2 : ℝ) = 0 by ring, Real.sqrt_zero]
    norm_num

end Kinematics

namespace Kinematics

open Real

/-- Angle assigned by `Math.atan2` to the vector `(-1, sqrt 3)`. -/
theorem atan2_sqrt3_neg_one : atan2 (Real.sqrt 3) (-1) = 2 * π / 3 := by
  have hcos : Real.cos (2 * π / 3) = -(1 / 2) := by
    rw [show (2 : ℝ) * π / 3 = π - π / 3 by ring, Real.cos_pi_sub, Real.cos_pi_div_three]
  have hsin : Real.sin (2 * π / 3) = Real.sqrt 3 / 2 := by
    rw [show (2 : ℝ) * π / 3 = π - π / 3 by ring, Real.sin_pi_sub, Real.sin_pi_div_three]
  have hmem : 2 * π / 3 ∈ Set.Ioc (-π) π := by
    constructor
    · nlinarith [pi_pos]
    · nlinarith [pi_pos]
  have harg := Complex.arg_mul_cos_add_sin_mul_I (show (0 : ℝ) < 2 by norm_num) hmem
  rw [← Complex.ofReal_cos, ← Complex.ofReal_sin, hcos, hsin] at harg
  have hz : (⟨-1, Real.sqrt 3⟩ : ℂ) =
      ((2 : ℝ) : ℂ) * (((-(1 / 2) : ℝ) : ℂ) + ((Real.sqrt 3 / 2 : ℝ) : ℂ) * Complex.I) := by
    apply Complex.ext
    · simp
    · simp
      ring
  rw [atan2, hz]
  exact harg

/-- Angle assigned by `Math.atan2` to the vector `(1, sqrt 3)`. -/
theorem atan2_sqrt3_one : atan2 (Real.sqrt 3) 1 = π / 3 := by
  have hmem : π / 3 ∈ Set.Ioc (-π) π := by
    constructor
    · nlinarith [pi_pos]
    · nlinarith [pi_pos]
  have harg := Complex.arg_mul_cos_add_sin_mul_I (show (0 : ℝ) < 2 by norm_num) hmem
  rw [← Complex.ofReal_cos, ← Complex.ofReal_sin, Real.cos_pi_div_three,
    Real.sin_pi_div_three] at harg
  have hz : (⟨1, Real.sqrt 3⟩ : ℂ) =
      ((2 : ℝ) : ℂ) * (((1 / 2 : ℝ) : ℂ) + ((Real.sqrt 3 / 2 : ℝ) : ℂ) * Complex.I) := by
    apply Complex.ext
    · simp
    · simp
      ring
  rw [atan2, hz]
  exact harg

/-- Effective crank length for the bent crank with `L_BODY = 1`,
`L_BLUE = sqrt 3`, `A_BEND = 90`. -/
theorem counter_L_EFF : (recalcProps counterConfig).L_EFF = 2 := by
  show Real.sqrt ((1 : ℝ) ^ 2 + Real.sqrt 3 ^ 2 - 2 * 1 * Real.sqrt 3 *
    Real.cos (90 * π / 180)) = 2
  rw [show (90 : ℝ) * π / 180 = π / 2 by ring, Real.cos_pi_div_two,
    Real.sq_sqrt (by norm_num : (0 : ℝ) ≤ 3)]
  rw [show (1 : ℝ) ^ 2 + 3 - 2 * 1 * Real.sqrt 3 * 0 = 4 by ring,
    show (4 : ℝ) = 2 ^ 2 by norm_num, Real.sqrt_sq (by norm_num : (0 : ℝ) ≤ 2)]

/-- Phase offset for the bent crank with `L_BODY = 1`, `L_BLUE = sqrt 3`,
`A_BEND = 90`. -/
theorem counter_PHI : (recalcProps counterConfig).PHI = π / 3 := by
  show Real.arcsin (Real.sqrt 3 * Real.sin (90 * π / 180) /
      Real.sqrt ((1 : ℝ) ^ 2 + Real.sqrt 3 ^ 2 - 2 * 1 * Real.sqrt 3 *
        Real.cos (90 * π / 180))) = π / 3
  have hle : Real.sqrt ((1 : ℝ) ^ 2 + Real.sqrt 3 ^ 2 - 2 * 1 * Real.sqrt 3 *
      Real.cos (90 * π / 180)) = 2 := counter_L_EFF
  rw [hle, show (90 : ℝ) * π / 180 = π / 2 by ring, Real.sin_pi_div_two, mul_one]
  rw [← Real.sin_pi_div_three]
  exact Real.arcsin_sin (by linarith [pi_pos]) (by linarith [pi_pos])

/-- After `setConfig counterConfig` the lazy guard does not fire again. -/
theorem counter_effProps : effProps (setConfig counterConfig) = recalcProps counterConfig := by
  have hne2 : (setConfig counterConfig).props.L_EFF ≠ 0 := by
    show (recalcProps counterConfig).L_EFF ≠ 0
    rw [counter_L_EFF]
    norm_num
  unfold effProps
  rw [if_neg hne2]
  rfl

/-- Crank length in effect after `setConfig counterConfig`. -/
theorem counter_eff_L_EFF : (effProps (setConfig counterConfig)).L_EFF = 2 := by
  rw [counter_effProps, counter_L_EFF]

/-- Phase offset in effect after `setConfig counterConfig`. -/
theorem counter_eff_PHI : (effProps (setConfig counterConfig)).PHI = π / 3 := by
  rw [counter_effProps, counter_PHI]

/-- Circle intersection used by both sides of `inverse` at the target
`(0, 2*sqrt 3)` under `counterConfig`: both shoulders sit at the origin. -/
theorem counter_gci :
    getCircleIntersections 0 0 2 0 (2 * Real.sqrt 3) 2 =
      some (⟨1, Real.sqrt 3⟩, ⟨-1, Real.sqrt 3⟩) := by
  have s3 : Real.sqrt 3 * Real.sqrt 3 = 3 := Real.mul_self_sqrt (by norm_num)
  have s3u : Real.sqrt 3 ≤ 1.8 := sqrt_ub (by norm_num) (by norm_num)
  have hd : cdist 0 0 0 (2 * Real.sqrt 3) = 2 * Real.sqrt 3 := by
    rw [cdist, show ((0 : ℝ) - 0) * (0 - 0) + (2 * Real.sqrt 3 - 0) * (2 * Real.sqrt 3 - 0) =
      (2 * Real.sqrt 3) ^ 2 by ring]
    exact Real.sqrt_sq (by positivity)
  have hcond : ¬(2 * Real.sqrt 3 > 2 + 2 ∨ 2 * Real.sqrt 3 < |2 - 2| ∨
      2 * Real.sqrt 3 = 0) := by
    push_neg
    refine ⟨by nlinarith, ?_, by positivity⟩
    rw [sub_self, abs_zero]
    positivity
  have hA : aOff 2 2 (2 * Real.sqrt 3) = Real.sqrt 3 := by
    rw [aOff, div_eq_iff (by positivity : (2 : ℝ) * (2 * Real.sqrt 3) ≠ 0)]
    ring
  have hH : hOff 2 (Real.sqrt 3) = 1 := by
    rw [hOff, show (2 : ℝ) * 2 - Real.sqrt 3 * Real.sqrt 3 = 1 by linear_combination -s3,
      Real.sqrt_one]
  have hfull := gci_eq 0 0 2 0 (2 * Real.sqrt 3) 2
  rw [hd, if_neg hcond, hA, hH] at hfull
  have h2s3 : (2 : ℝ) * Real.sqrt 3 ≠ 0 := by positivity
  have hp0 : (⟨0 + Real.sqrt 3 * ((0 - 0) / (2 * Real.sqrt 3)) +
      1 * ((2 * Real.sqrt 3 - 0) / (2 * Real.sqrt 3)),
      0 + Real.sqrt 3 * ((2 * Real.sqrt 3 - 0) / (2 * Real.sqrt 3)) -
      1 * ((0 - 0) / (2 * Real.sqrt 3))⟩ : Point) = ⟨1, Real.sqrt 3⟩ := by
    ext
    · show 0 + Real.sqrt 3 * ((0 - 0) / (2 * Real.sqrt 3)) +
        1 * ((2 * Real.sqrt 3 - 0) / (2 * Real.sqrt 3)) = 1
      field_simp
      try ring
    · show 0 + Real.sqrt 3 * ((2 * Real.sqrt 3 - 0) / (2 * Real.sqrt 3)) -
        1 * ((0 - 0) / (2 * Real.sqrt 3)) = Real.sqrt 3
      field_simp
      try ring
  have hp1 : (⟨0 + Real.sqrt 3 * ((0 - 0) / (2 * Real.sqrt 3)) -
      1 * ((2 * Real.sqrt 3 - 0) / (2 * Real.sqrt 3)),
      0 + Real.sqrt 3 * ((2 * Real.sqrt 3 - 0) / (2 * Real.sqrt 3)) +
      1 * ((0 - 0) / (2 * Real.sqrt 3))⟩ : Point) = ⟨-1, Real.sqrt 3⟩ := by
    ext
    · show 0 + Real.sqrt 3 * ((0 - 0) / (2 * Real.sqrt 3)) -
        1 * ((2 * Real.sqrt 3 - 0) / (2 * Real.sqrt 3)) = -1
      field_simp
      try ring
    · show 0 + Real.sqrt 3 * ((2 * Real.sqrt 3 - 0) / (2 * Real.sqrt 3)) +
        1 * ((0 - 0) / (2 * Real.sqrt 3)) = Real.sqrt 3
      field_simp
      try ring
  rw [hfull, hp0, hp1]

/-- Left shoulder x under `counterConfig` (coincident shoulders). -/
theorem counter_SLx : (SLpt counterConfig).x = 0 := by
  show -(0 : ℝ) / 2 = 0
  norm_num

/-- Right shoulder x under `counterConfig`. -/
theorem counter_SRx : (SRpt counterConfig).x = 0 := by
  show (0 : ℝ) / 2 = 0
  norm_num

/-- Full evaluation of `inverse` at `(0, 2*sqrt 3)` under `counterConfig`: the
solve succeeds with the servo pair `(0, 60)`. -/
theorem counter_inverse_eval :
    inverseCalc counterConfig (effProps (setConfig counterConfig)) 0 (2 * Real.sqrt 3) =
      some ⟨0, 60⟩ := by
  have hsel : (if (⟨1, Real.sqrt 3⟩ : Point).y < (⟨-1, Real.sqrt 3⟩ : Point).y
      then (⟨1, Real.sqrt 3⟩ : Point) else (⟨-1, Real.sqrt 3⟩ : Point)) =
      (⟨-1, Real.sqrt 3⟩ : Point) := if_neg (lt_irrefl _)
  have hπ : (π : ℝ) ≠ 0 := Real.pi_ne_zero
  have hdL : 180 - (atan2 (Real.sqrt 3 - 0) (-1 - 0) + π / 3) * 180 / π = 0 := by
    rw [show Real.sqrt 3 - 0 = Real.sqrt 3 by ring, show (-1 : ℝ) - 0 = -1 by norm_num,
      atan2_sqrt3_neg_one]
    field_simp
    try ring
  have hdR : (atan2 (Real.sqrt 3 - 0) (-1 - 0) - π / 3) * 180 / π = 60 := by
    rw [show Real.sqrt 3 - 0 = Real.sqrt 3 by ring, show (-1 : ℝ) - 0 = -1 by norm_num,
      atan2_sqrt3_neg_one]
    field_simp
    try ring
  have hok : ¬((0 : ℝ) < -30.1 ∨ (0 : ℝ) > 60.1 ∨ (60 : ℝ) < -30.1 ∨ (60 : ℝ) > 60.1) := by
    norm_num
  exact inverseCalc_some_nums counter_SLx (show (SLpt counterConfig).y = 0 from rfl)
    counter_SRx (show (SRpt counterConfig).y = 0 from rfl) counter_eff_L_EFF
    (show counterConfig.L_MAIN = 2 from rfl) counter_eff_PHI counter_gci counter_gci
    hsel hsel hdL hdR hok

/-- Left virtual elbow of the subsequent `forward(0, 60)` under
`counterConfig`. -/
theorem counter_fwdElbowL :
    fwdElbowL counterConfig (effProps (setConfig counterConfig)) 0 =
      (⟨-1, Real.sqrt 3⟩ : Point) := by
  ext
  · show -(0 : ℝ) / 2 + (effProps (setConfig counterConfig)).L_EFF *
        Real.cos ((180 - 0) * π / 180 - (effProps (setConfig counterConfig)).PHI) = -1
    rw [counter_eff_L_EFF, counter_eff_PHI,
      show (180 - (0 : ℝ)) * π / 180 - π / 3 = π - π / 3 by ring,
      Real.cos_pi_sub, Real.cos_pi_div_three]
    norm_num
  · show (0 : ℝ) + (effProps (setConfig counterConfig)).L_EFF *
        Real.sin ((180 - 0) * π / 180 - (effProps (setConfig counterConfig)).PHI) = Real.sqrt 3
    rw [counter_eff_L_EFF, counter_eff_PHI,
      show (180 - (0 : ℝ)) * π / 180 - π / 3 = π - π / 3 by ring,
      Real.sin_pi_sub, Real.sin_pi_div_three]
    ring

/-- Right virtual elbow of the subsequent `forward(0, 60)` under
`counterConfig`: it coincides with the left one. -/
theorem counter_fwdElbowR :
    fwdElbowR counterConfig (effProps (setConfig counterConfig)) 60 =
      (⟨-1, Real.sqrt 3⟩ : Point) := by
  ext
  · show (0 : ℝ) / 2 + (effProps (setConfig counterConfig)).L_EFF *
        Real.cos ((0 + 60) * π / 180 + (effProps (setConfig counterConfig)).PHI) = -1
    rw [counter_eff_L_EFF, counter_eff_PHI,
      show ((0 : ℝ) + 60) * π / 180 + π / 3 = π - π / 3 by ring,
      Real.cos_pi_sub, Real.cos_pi_div_three]
    norm_num
  · show (0 : ℝ) + (effProps (setConfig counterConfig)).L_EFF *
        Real.sin ((0 + 60) * π / 180 + (effProps (setConfig counterConfig)).PHI) = Real.sqrt 3
    rw [counter_eff_L_EFF, counter_eff_PHI,
      show ((0 : ℝ) + 60) * π / 180 + π / 3 = π - π / 3 by ring,
      Real.sin_pi_sub, Real.sin_pi_div_three]
    ring

/-- The subsequent `forward(0, 60)` fails under `counterConfig`: the two
virtual elbows coincide, so the main-arm circle intersection is rejected with
`d = 0`. -/
theorem counter_forward_none :
    forwardCalc counterConfig (effProps (setConfig counterConfig)) 0 60 = none := by
  have hgnone : getCircleIntersections (-1) (Real.sqrt 3) 2 (-1) (Real.sqrt 3) 2 = none := by
    have hd0 : cdist (-1) (Real.sqrt 3) (-1) (Real.sqrt 3) = 0 := by
      rw [cdist, show ((-1 : ℝ) - -1) * (-1 - -1) +
        (Real.sqrt 3 - Real.sqrt 3) * (Real.sqrt 3 - Real.sqrt 3) = 0 by ring, Real.sqrt_zero]
    rw [gci_eq, hd0, if_pos (Or.inr (Or.inr rfl))]
  exact forwardCalc_none_nums (congrArg Point.x counter_fwdElbowL)
    (congrArg Point.y counter_fwdElbowL) (congrArg Point.x counter_fwdElbowR)
    (congrArg Point.y counter_fwdElbowR) (show counterConfig.L_MAIN = 2 from rfl) hgnone

/-- C1 counterexample: under `counterConfig` (coincident shoulders, bent crank
with effective length 2, main arms of length 2), `inverse(0, 2*sqrt 3)`
succeeds with the servo pair `(0, 60)`, yet `forward(0, 60)` run in the state
returned by `inverse` yields not-found: the min-y elbow branch selected by
`inverse` makes both virtual elbows coincide, which `forward` rejects. The
unconditional round-trip claim is therefore false. -/
theorem inverse_forward_branch_mismatch :
    (inverse (setConfig counterConfig) 0 (2 * Real.sqrt 3)).1 = some ⟨0, 60⟩ ∧
    (forward ((inverse (setConfig counterConfig) 0 (2 * Real.sqrt 3)).2) 0 60).1 = none := by
  constructor
  · exact counter_inverse_eval
  · have hst : (forward ((inverse (setConfig counterConfig) 0 (2 * Real.sqrt 3)).2) 0 60).1 =
        forwardCalc counterConfig (effProps (setConfig counterConfig)) 0 60 := by
      show forwardCalc counterConfig
          (effProps ⟨(setConfig counterConfig).CONFIG, effProps (setConfig counterConfig)⟩)
          0 60 =
        forwardCalc counterConfig (effProps (setConfig counterConfig)) 0 60
      rw [effProps_state_idem]
    rw [hst]
    exact counter_forward_none

end Kinematics

namespace Kinematics

open Real

/-- Crank length of `niceConfig` (same bent crank as `counterConfig`). -/
theorem nice_L_EFF : (recalcProps niceConfig).L_EFF = 2 := counter_L_EFF

/-- Phase offset of `niceConfig`. -/
theorem nice_PHI : (recalcProps niceConfig).PHI = π / 3 := counter_PHI

/-- After `setConfig niceConfig` the lazy guard does not fire again. -/
theorem nice_effProps : effProps (setConfig niceConfig) = recalcProps niceConfig := by
  have hne2 : (setConfig niceConfig).props.L_EFF ≠ 0 := by
    show (recalcProps niceConfig).L_EFF ≠ 0
    rw [nice_L_EFF]
    norm_num
  unfold effProps
  rw [if_neg hne2]
  rfl

/-- Crank length in effect after `setConfig niceConfig`. -/
theorem nice_eff_L_EFF : (effProps (setConfig niceConfig)).L_EFF = 2 := by
  rw [nice_effProps, nice_L_EFF]

/-- Phase offset in effect after `setConfig niceConfig`. -/
theorem nice_eff_PHI : (effProps (setConfig niceConfig)).PHI = π / 3 := by
  rw [nice_effProps, nice_PHI]

/-- Left shoulder x under `niceConfig`. -/
theorem nice_SLx : (SLpt niceConfig).x = -2 := by
  show -(4 : ℝ) / 2 = -2
  norm_num

/-- Right shoulder x under `niceConfig`. -/
theorem nice_SRx : (SRpt niceConfig).x = 2 := by
  show (4 : ℝ) / 2 = 2
  norm_num

/-- Left-shoulder circle intersection for the target `(0, 3*sqrt 3)` under
`niceConfig`. -/
theorem nice_gci_left :
    getCircleIntersections (-2) 0 2 0 (3 * Real.sqrt 3) (Real.sqrt 13) =
      some (⟨-1, Real.sqrt 3⟩, ⟨-49 / 31, 35 * Real.sqrt 3 / 31⟩) := by
  have s3 : Real.sqrt 3 * Real.sqrt 3 = 3 := Real.mul_self_sqrt (by norm_num)
  have s31 : Real.sqrt 31 * Real.sqrt 31 = 31 := Real.mul_self_sqrt (by norm_num)
  have s13 : Real.sqrt 13 * Real.sqrt 13 = 13 := Real.mul_self_sqrt (by norm_num)
  have s31l : (5.5 : ℝ) ≤ Real.sqrt 31 := sqrt_lb (by norm_num) (by norm_num)
  have s31u : Real.sqrt 31 ≤ 5.6 := sqrt_ub (by norm_num) (by norm_num)
  have s13l : (3.6 : ℝ) ≤ Real.sqrt 13 := sqrt_lb (by norm_num) (by norm_num)
  have s13u : Real.sqrt 13 ≤ 3.7 := sqrt_ub (by norm_num) (by norm_num)
  have hd : cdist (-2) 0 0 (3 * Real.sqrt 3) = Real.sqrt 31 := by
    rw [cdist, show ((0 : ℝ) - -2) * (0 - -2) + (3 * Real.sqrt 3 - 0) * (3 * Real.sqrt 3 - 0) =
      4 + 9 * (Real.sqrt 3 * Real.sqrt 3) by ring, s3]
    norm_num
  have hcond : ¬(Real.sqrt 31 > 2 + Real.sqrt 13 ∨ Real.sqrt 31 < |2 - Real.sqrt 13| ∨
      Real.sqrt 31 = 0) := by
    push_neg
    refine ⟨by linarith, ?_, by positivity⟩
    rw [abs_of_nonpos (by linarith)]
    linarith
  have hA : aOff 2 (Real.sqrt 13) (Real.sqrt 31) = 11 / Real.sqrt 31 := by
    rw [aOff, div_eq_div_iff (by positivity) (by positivity)]
    linear_combination (-(Real.sqrt 31)) * s13 + Real.sqrt 31 * s31
  have hH : hOff 2 (11 / Real.sqrt 31) = Real.sqrt 3 / Real.sqrt 31 := by
    rw [hOff, show (2 : ℝ) * 2 - 11 / Real.sqrt 31 * (11 / Real.sqrt 31) = 3 / 31 from by
      rw [div_mul_div_comm, s31]
      norm_num]
    rw [Real.sqrt_div (by norm_num : (0 : ℝ) ≤ 3)]
  have hfull := gci_eq (-2) 0 2 0 (3 * Real.sqrt 3) (Real.sqrt 13)
  rw [hd, if_neg hcond, hA, hH] at hfull
  have e1 : 11 / Real.sqrt 31 * ((0 - -2) / Real.sqrt 31) = 22 / 31 := by
    rw [div_mul_div_comm, s31]
    norm_num
  have e2 : Real.sqrt 3 / Real.sqrt 31 * ((3 * Real.sqrt 3 - 0) / Real.sqrt 31) = 9 / 31 := by
    rw [div_mul_div_comm, s31,
      show Real.sqrt 3 * (3 * Real.sqrt 3 - 0) = 3 * (Real.sqrt 3 * Real.sqrt 3) by ring, s3]
    norm_num
  have e3 : 11 / Real.sqrt 31 * ((3 * Real.sqrt 3 - 0) / Real.sqrt 31) =
      33 * Real.sqrt 3 / 31 := by
    rw [div_mul_div_comm, s31,
      show (11 : ℝ) * (3 * Real.sqrt 3 - 0) = 33 * Real.sqrt 3 by ring]
  have e4 : Real.sqrt 3 / Real.sqrt 31 * ((0 - -2) / Real.sqrt 31) = 2 * Real.sqrt 3 / 31 := by
    rw [div_mul_div_comm, s31, show Real.sqrt 3 * (0 - -2) = 2 * Real.sqrt 3 by ring]
  rw [e1, e2, e3, e4] at hfull
  have hp0 : (⟨-2 + 22 / 31 + 9 / 31,
      0 + 33 * Real.sqrt 3 / 31 - 2 * Real.sqrt 3 / 31⟩ : Point) = ⟨-1, Real.sqrt 3⟩ := by
    ext
    · show (-2 : ℝ) + 22 / 31 + 9 / 31 = -1
      norm_num
    · show (0 : ℝ) + 33 * Real.sqrt 3 / 31 - 2 * Real.sqrt 3 / 31 = Real.sqrt 3
      ring
  have hp1 : (⟨-2 + 22 / 31 - 9 / 31,
      0 + 33 * Real.sqrt 3 / 31 + 2 * Real.sqrt 3 / 31⟩ : Point) =
      ⟨-49 / 31, 35 * Real.sqrt 3 / 31⟩ := by
    ext
    · show (-2 : ℝ) + 22 / 31 - 9 / 31 = -49 / 31
      norm_num
    · show (0 : ℝ) + 33 * Real.sqrt 3 / 31 + 2 * Real.sqrt 3 / 31 = 35 * Real.sqrt 3 / 31
      ring
  rw [hfull, hp0, hp1]

/-- Right-shoulder circle intersection for the target `(0, 3*sqrt 3)` under
`niceConfig`. -/
theorem nice_gci_right :
    getCircleIntersections 2 0 2 0 (3 * Real.sqrt 3) (Real.sqrt 13) =
      some (⟨49 / 31, 35 * Real.sqrt 3 / 31⟩, ⟨1, Real.sqrt 3⟩) := by
  have s3 : Real.sqrt 3 * Real.sqrt 3 = 3 := Real.mul_self_sqrt (by norm_num)
  have s31 : Real.sqrt 31 * Real.sqrt 31 = 31 := Real.mul_self_sqrt (by norm_num)
  have s13 : Real.sqrt 13 * Real.sqrt 13 = 13 := Real.mul_self_sqrt (by norm_num)
  have s31l : (5.5 : ℝ) ≤ Real.sqrt 31 := sqrt_lb (by norm_num) (by norm_num)
  have s31u : Real.sqrt 31 ≤ 5.6 := sqrt_ub (by norm_num) (by norm_num)
  have s13l : (3.6 : ℝ) ≤ Real.sqrt 13 := sqrt_lb (by norm_num) (by norm_num)
  have s13u : Real.sqrt 13 ≤ 3.7 := sqrt_ub (by norm_num) (by norm_num)
  have hd : cdist 2 0 0 (3 * Real.sqrt 3) = Real.sqrt 31 := by
    rw [cdist, show ((0 : ℝ) - 2) * (0 - 2) + (3 * Real.sqrt 3 - 0) * (3 * Real.sqrt 3 - 0) =
      4 + 9 * (Real.sqrt 3 * Real.sqrt 3) by ring, s3]
    norm_num
  have hcond : ¬(Real.sqrt 31 > 2 + Real.sqrt 13 ∨ Real.sqrt 31 < |2 - Real.sqrt 13| ∨
      Real.sqrt 31 = 0) := by
    push_neg
    refine ⟨by linarith, ?_, by positivity⟩
    rw [abs_of_nonpos (by linarith)]
    linarith
  have hA : aOff 2 (Real.sqrt 13) (Real.sqrt 31) = 11 / Real.sqrt 31 := by
    rw [aOff, div_eq_div_iff (by positivity) (by positivity)]
    linear_combination (-(Real.sqrt 31)) * s13 + Real.sqrt 31 * s31
  have hH : hOff 2 (11 / Real.sqrt 31) = Real.sqrt 3 / Real.sqrt 31 := by
    rw [hOff, show (2 : ℝ) * 2 - 11 / Real.sqrt 31 * (11 / Real.sqrt 31) = 3 / 31 from by
      rw [div_mul_div_comm, s31]
      norm_num]
    rw [Real.sqrt_div (by norm_num : (0 : ℝ) ≤ 3)]
  have hfull := gci_eq 2 0 2 0 (3 * Real.sqrt 3) (Real.sqrt 13)
  rw [hd, if_neg hcond, hA, hH] at hfull
  have e1 : 11 / Real.sqrt 31 * ((0 - 2) / Real.sqrt 31) = -22 / 31 := by
    rw [div_mul_div_comm, s31]
    norm_num
  have e2 : Real.sqrt 3 / Real.sqrt 31 * ((3 * Real.sqrt 3 - 0) / Real.sqrt 31) = 9 / 31 := by
    rw [div_mul_div_comm, s31,
      show Real.sqrt 3 * (3 * Real.sqrt 3 - 0) = 3 * (Real.sqrt 3 * Real.sqrt 3) by ring, s3]
    norm_num
  have e3 : 11 / Real.sqrt 31 * ((3 * Real.sqrt 3 - 0) / Real.sqrt 31) =
      33 * Real.sqrt 3 / 31 := by
    rw [div_mul_div_comm, s31,
      show (11 : ℝ) * (3 * Real.sqrt 3 - 0) = 33 * Real.sqrt 3 by ring]
  have e4 : Real.sqrt 3 / Real.sqrt 31 * ((0 - 2) / Real.sqrt 31) =
      -(2 * Real.sqrt 3) / 31 := by
    rw [div_mul_div_comm, s31, show Real.sqrt 3 * (0 - 2) = -(2 * Real.sqrt 3) by ring]
  rw [e1, e2, e3, e4] at hfull
  have hp0 : (⟨2 + -22 / 31 + 9 / 31,
      0 + 33 * Real.sqrt 3 / 31 - -(2 * Real.sqrt 3) / 31⟩ : Point) =
      ⟨49 / 31, 35 * Real.sqrt 3 / 31⟩ := by
    ext
    · show (2 : ℝ) + -22 / 31 + 9 / 31 = 49 / 31
      norm_num
    · show (0 : ℝ) + 33 * Real.sqrt 3 / 31 - -(2 * Real.sqrt 3) / 31 = 35 * Real.sqrt 3 / 31
      ring
  have hp1 : (⟨2 + -22 / 31 - 9 / 31,
      0 + 33 * Real.sqrt 3 / 31 + -(2 * Real.sqrt 3) / 31⟩ : Point) = ⟨1, Real.sqrt 3⟩ := by
    ext
    · show (2 : ℝ) + -22 / 31 - 9 / 31 = 1
      norm_num
    · show (0 : ℝ) + 33 * Real.sqrt 3 / 31 + -(2 * Real.sqrt 3) / 31 = Real.sqrt 3
      ring
  rw [hfull, hp0, hp1]

/-- The left candidate with the smaller y is the first one under `niceConfig`. -/
theorem nice_sel_lt : Real.sqrt 3 < 35 * Real.sqrt 3 / 31 := by
  rw [lt_div_iff (by norm_num : (0 : ℝ) < 31)]
  have s3pos : (0 : ℝ) < Real.sqrt 3 := Real.sqrt_pos.mpr (by norm_num)
  linarith

/-- Full evaluation of `inverse` at `(0, 3*sqrt 3)` under `niceConfig`: the
solve succeeds with the servo pair `(60, 60)`. -/
theorem nice_inverse_eval :
    inverseCalc niceConfig (effProps (setConfig niceConfig)) 0 (3 * Real.sqrt 3) =
      some ⟨60, 60⟩ := by
  have hπ : (π : ℝ) ≠ 0 := Real.pi_ne_zero
  have hselL : (if (⟨-1, Real.sqrt 3⟩ : Point).y <
      (⟨-49 / 31, 35 * Real.sqrt 3 / 31⟩ : Point).y
      then (⟨-1, Real.sqrt 3⟩ : Point) else ⟨-49 / 31, 35 * Real.sqrt 3 / 31⟩) =
      (⟨-1, Real.sqrt 3⟩ : Point) := if_pos nice_sel_lt
  have hselR : (if (⟨49 / 31, 35 * Real.sqrt 3 / 31⟩ : Point).y <
      (⟨1, Real.sqrt 3⟩ : Point).y
      then (⟨49 / 31, 35 * Real.sqrt 3 / 31⟩ : Point) else ⟨1, Real.sqrt 3⟩) =
      (⟨1, Real.sqrt 3⟩ : Point) := if_neg (asymm nice_sel_lt)
  have hdL : 180 - (atan2 (Real.sqrt 3 - 0) (-1 - -2) + π / 3) * 180 / π = 60 := by
    rw [show Real.sqrt 3 - 0 = Real.sqrt 3 by ring, show (-1 : ℝ) - -2 = 1 by norm_num,
      atan2_sqrt3_one]
    field_simp
    try ring
  have hdR : (atan2 (Real.sqrt 3 - 0) (1 - 2) - π / 3) * 180 / π = 60 := by
    rw [show Real.sqrt 3 - 0 = Real.sqrt 3 by ring, show (1 : ℝ) - 2 = -1 by norm_num,
      atan2_sqrt3_neg_one]
    field_simp
    try ring
  have hok : ¬((60 : ℝ) < -30.1 ∨ (60 : ℝ) > 60.1 ∨ (60 : ℝ) < -30.1 ∨
      (60 : ℝ) > 60.1) := by
    norm_num
  exact inverseCalc_some_nums nice_SLx (show (SLpt niceConfig).y = 0 from rfl) nice_SRx
    (show (SRpt niceConfig).y = 0 from rfl) nice_eff_L_EFF
    (show niceConfig.L_MAIN = Real.sqrt 13 from rfl) nice_eff_PHI nice_gci_left
    nice_gci_right hselL hselR hdL hdR hok

/-- Elbow pair selected by `inverse` at `(0, 3*sqrt 3)` under `niceConfig`. -/
theorem nice_elbows_eval :
    inverseElbows niceConfig (effProps (setConfig niceConfig)) 0 (3 * Real.sqrt 3) =
      some (⟨-1, Real.sqrt 3⟩, ⟨1, Real.sqrt 3⟩) := by
  have hselL : (if (⟨-1, Real.sqrt 3⟩ : Point).y <
      (⟨-49 / 31, 35 * Real.sqrt 3 / 31⟩ : Point).y
      then (⟨-1, Real.sqrt 3⟩ : Point) else ⟨-49 / 31, 35 * Real.sqrt 3 / 31⟩) =
      (⟨-1, Real.sqrt 3⟩ : Point) := if_pos nice_sel_lt
  have hselR : (if (⟨49 / 31, 35 * Real.sqrt 3 / 31⟩ : Point).y <
      (⟨1, Real.sqrt 3⟩ : Point).y
      then (⟨49 / 31, 35 * Real.sqrt 3 / 31⟩ : Point) else ⟨1, Real.sqrt 3⟩) =
      (⟨1, Real.sqrt 3⟩ : Point) := if_neg (asymm nice_sel_lt)
  unfold inverseElbows
  rw [nice_SLx, show (SLpt niceConfig).y = 0 from rfl, nice_SRx,
    show (SRpt niceConfig).y = 0 from rfl, nice_eff_L_EFF,
    show niceConfig.L_MAIN = Real.sqrt 13 from rfl, nice_gci_left, nice_gci_right]
  show some ((if (⟨-1, Real.sqrt 3⟩ : Point).y <
      (⟨-49 / 31, 35 * Real.sqrt 3 / 31⟩ : Point).y
      then (⟨-1, Real.sqrt 3⟩ : Point) else ⟨-49 / 31, 35 * Real.sqrt 3 / 31⟩),
      (if (⟨49 / 31, 35 * Real.sqrt 3 / 31⟩ : Point).y < (⟨1, Real.sqrt 3⟩ : Point).y
      then (⟨49 / 31, 35 * Real.sqrt 3 / 31⟩ : Point) else ⟨1, Real.sqrt 3⟩)) =
    some (⟨-1, Real.sqrt 3⟩, ⟨1, Real.sqrt 3⟩)
  rw [hselL, hselR]

/-- Witness for the amended C1 round trip at `niceConfig`, target
`(0, 3*sqrt 3)`: `inverse` returns `(60, 60)` and `forward(60, 60)` reproduces
the pen point exactly. -/
theorem inverse_forward_round_trip_witness :
    ∃ res : ForwardResult,
      (forward ((inverse (setConfig niceConfig) 0 (3 * Real.sqrt 3)).2) 60 60).1 = some res ∧
      res.P.x = 0 ∧ res.P.y = 3 * Real.sqrt 3 ∧
      Real.sqrt ((res.P.x - 0) ^ 2 + (res.P.y - 3 * Real.sqrt 3) ^ 2) ≤ 1 / 1000 :=
  inverse_forward_round_trip (setConfig niceConfig) 0 (3 * Real.sqrt 3) 60 60
    ⟨-1, Real.sqrt 3⟩ ⟨1, Real.sqrt 3⟩ nice_inverse_eval nice_elbows_eval
    (by
      intro h
      have hx : (-1 : ℝ) = 1 := congrArg Point.x h
      norm_num at hx)
    (by
      have h3 : (0 : ℝ) < Real.sqrt 3 := Real.sqrt_pos.mpr (by norm_num)
      show 2 * (Real.sqrt 3 + ((0 - -1) * (1 - -1) +
          (3 * Real.sqrt 3 - Real.sqrt 3) * (Real.sqrt 3 - Real.sqrt 3)) /
          ((1 - -1) * (1 - -1) + (Real.sqrt 3 - Real.sqrt 3) * (Real.sqrt 3 - Real.sqrt 3)) *
          (Real.sqrt 3 - Real.sqrt 3)) - 3 * Real.sqrt 3 < 3 * Real.sqrt 3
      rw [sub_self]
      ring_nf
      linarith [h3])

/-- Witness for the C6 range check at a successful solve: the `(60, 60)`
result of `inverse` under `niceConfig` lies within the servo bounds. -/
theorem inverse_range_check_witness :
    -30.1 ≤ ((⟨60, 60⟩ : InverseResult)).thetaL ∧
    ((⟨60, 60⟩ : InverseResult)).thetaL ≤ 60.1 ∧
    -30.1 ≤ ((⟨60, 60⟩ : InverseResult)).thetaR ∧
    ((⟨60, 60⟩ : InverseResult)).thetaR ≤ 60.1 :=
  (inverse_range_check (setConfig niceConfig) 0 (3 * Real.sqrt 3)).2 ⟨60, 60⟩
    nice_inverse_eval

end Kinematics
